import Mathlib

/-!
# wails v3 `application` package: dispatch, registries and start-up

A shallow embedding of `v3/pkg/application/application.go`, and of
`parseSizes` of `exp/internal/commands/icon.go`.

* Go maps are association lists read through `GoMap.get?`.
* Pointers (`*WebviewWindow`, `*EventListener`, a `runnable`) and function
  values are natural-number handles; what a call on them does to the rest
  of the program is recorded, in order, in the `trace` of the `App`.
* The locks of the source serialise the critical sections; an operation of
  the source is one atomic function on the state here.
* `uint` is the 64-bit unsigned integer: arithmetic on it is taken
  modulo `2 ^ 64`.
-/

namespace Wails

/-! ## Go maps -/

/-- Go `map[K]V`: a list of bindings, a key being bound to the value of its
first binding. -/
abbrev GoMap (κ ν : Type) := List (κ × ν)

namespace GoMap

variable {κ ν : Type} [DecidableEq κ]

/-- The comma-ok read: `v, ok := m[k]`. -/
def get? : GoMap κ ν → κ → Option ν
  | [], _ => none
  | (k', v) :: rest, k => if k' = k then some v else get? rest k

/-- The assignment `m[k] = v`. -/
def set : GoMap κ ν → κ → ν → GoMap κ ν
  | [], k, v => [(k, v)]
  | (k', v') :: rest, k, v =>
    if k' = k then (k, v) :: rest else (k', v') :: set rest k v

/-- The statement `delete(m, k)`. -/
def delete : GoMap κ ν → κ → GoMap κ ν
  | [], _ => []
  | (k', v') :: rest, k =>
    if k' = k then delete rest k else (k', v') :: delete rest k

end GoMap

/-! ## Values, effects -/

/-- Width of Go's `uint` on the 64-bit targets. -/
def uintBits : Nat := 64

/-- Number of values of a `uint`. -/
def uintSize : Nat := 2 ^ uintBits

/-- A Go `any`, as far as the panic path looks at it. -/
inductive Value where
  | nil
  | str (s : String)
  | error (msg : String)
  deriving DecidableEq, Repr

/-- A Go `error`: `none` is `nil`. -/
abbrev GoError := Option String

/-- The payload of `windowEvents`. -/
structure WindowEvent where
  WindowID : Nat
  EventID : Nat
  deriving DecidableEq, Repr

/-- Messages sent from javascript. -/
structure windowMessage where
  windowId : Nat
  message : String
  deriving DecidableEq, Repr

/-- The payload of `windowDragAndDropBuffer`. -/
structure dragAndDropMessage where
  windowId : Nat
  filenames : List String
  deriving DecidableEq, Repr

/-- What the program does to its collaborators, in the order it does it. -/
inductive Effect where
  /-- `r.run()`, called on the caller's goroutine -/
  | run (r : Nat)
  /-- `go systray.run()` -/
  | goRun (r : Nat)
  /-- `go listener.callback()` -/
  | goCallback (callback : Nat)
  /-- `go a.impl.on(eventID)` -/
  | goImplOn (eventID : Nat)
  /-- `log.Printf(...)` -/
  | logPrintf (msg : String)
  /-- `window.handleWindowEvent(event.EventID)` -/
  | windowHandleWindowEvent (window : Nat) (eventID : Nat)
  /-- `window.handleMessage(event.message)` -/
  | windowHandleMessage (window : Nat) (message : String)
  /-- `window.handleDragAndDropMessage(event)` -/
  | windowHandleDragAndDropMessage (window : Nat) (event : dragAndDropMessage)
  /-- a call of a function value of the caller -/
  | call (fn : Nat)
  /-- `a.impl.dispatchOnMainThread(id)` -/
  | implDispatchOnMainThread (id : Nat)
  /-- `globalApplication.options.PanicHandler(value)` -/
  | panicHandler (value : Value)
  /-- `fmt.Printf` and `fmt.Println` of the default panic policy -/
  | printPanic (value : Value)
  /-- `os.Exit(code)` -/
  | exit (code : Nat)
  /-- `a.log.Log(message)` with the level and the text of the message -/
  | log (level message : String)
  /-- `go func() { for { event := <-channel; ... } }()`, the dispatch loop
  of one channel -/
  | goDispatchLoop (channel : String)
  /-- `a.impl.setApplicationMenu(a.ApplicationMenu)` -/
  | implSetApplicationMenu
  /-- `a.impl.setIcon(a.options.Icon)` -/
  | implSetIcon
  /-- `a.impl.run()` -/
  | implRun
  /-- `a.plugins.Shutdown()` -/
  | pluginsShutdown
  deriving DecidableEq, Repr

/-! ## The application -/

/-- An `*EventListener`: the address of the allocation and the callback
stored there. -/
structure EventListener where
  addr : Nat
  callback : Nat
  deriving DecidableEq, Repr

/-- What the core consumes of `platformApp`. -/
structure platformApp where
  /-- the answer of `isOnMainThread()` -/
  isOnMainThread : Bool
  deriving DecidableEq, Repr

/-- The fields of `Options` the core reads. -/
structure Options where
  /-- whether `PanicHandler` is not nil -/
  PanicHandler : Bool
  deriving DecidableEq, Repr

/-- The fields of `App` that dispatch, routing and start-up use. -/
structure App where
  options : Options
  applicationEventListeners : GoMap Nat (List EventListener)
  windows : GoMap Nat Nat
  systemTrayID : Nat
  running : Bool
  pendingRun : List Nat
  impl : Option platformApp
  /-- next address the allocator hands to `&EventListener{...}` -/
  heapNext : Nat
  /-- the effects so far -/
  trace : List Effect
  deriving DecidableEq, Repr

/-- The `App` that `New` builds: empty maps, zero values elsewhere. -/
def New (appOptions : Options) : App :=
  { options := appOptions
    applicationEventListeners := []
    windows := []
    systemTrayID := 0
    running := false
    pendingRun := []
    impl := none
    heapNext := 0
    trace := [] }

namespace App

/-- Record an effect. -/
def emit (a : App) (e : Effect) : App :=
  { a with trace := a.trace ++ [e] }

/-! ### Start-up and the pending-run queue -/

/-- `runOrDeferToAppRun`. -/
def runOrDeferToAppRun (a : App) (r : Nat) : App :=
  let running := a.running
  let a := if !running then { a with pendingRun := a.pendingRun ++ [r] } else a
  if running then a.emit (.run r) else a

/-- The `for _, systray := range a.pendingRun { go systray.run() }` of `Run`. -/
def launchPending (a : App) : List Nat → App
  | [] => a
  | systray :: rest => launchPending (a.emit (.goRun systray)) rest

/-- The start transition of `Run`: from `a.runLock.Lock()` to
`a.runLock.Unlock()`. -/
def runStart (a : App) : App :=
  let a := { a with running := true }
  let a := a.launchPending a.pendingRun
  { a with pendingRun := [] }

/-- A sequence of creation calls, each ending in `runOrDeferToAppRun`. -/
def submitAll (a : App) (rs : List Nat) : App :=
  rs.foldl runOrDeferToAppRun a

/-! ### Routing of window envelopes -/

/-- `deleteWindowByID`. -/
def deleteWindowByID (a : App) (id : Nat) : App :=
  { a with windows := a.windows.delete id }

/-- The text of `log.Printf("WebviewWindow #%d not found", id)`. -/
def windowNotFound (id : Nat) : String :=
  "WebviewWindow #" ++ toString id ++ " not found"

/-- `handleDragAndDropMessage`. -/
def handleDragAndDropMessage (a : App) (event : dragAndDropMessage) : App :=
  match a.windows.get? event.windowId with
  | none => a.emit (.logPrintf (windowNotFound event.windowId))
  | some window => a.emit (.windowHandleDragAndDropMessage window event)

/-- `handleWindowMessage`. -/
def handleWindowMessage (a : App) (event : windowMessage) : App :=
  match a.windows.get? event.windowId with
  | none => a.emit (.logPrintf (windowNotFound event.windowId))
  | some window => a.emit (.windowHandleMessage window event.message)

/-- `handleWindowEvent`. -/
def handleWindowEvent (a : App) (event : WindowEvent) : App :=
  match a.windows.get? event.WindowID with
  | none => a.emit (.logPrintf (windowNotFound event.WindowID))
  | some window => a.emit (.windowHandleWindowEvent window event.EventID)

/-! ### Application event listeners -/

/-- The read `a.applicationEventListeners[eventID]`: the nil slice for a key
that is not bound. -/
def listenersOf (a : App) (eventID : Nat) : List EventListener :=
  (a.applicationEventListeners.get? eventID).getD []

/-- The loop `for _, listener := range listeners { go listener.callback() }`. -/
def launchListeners (a : App) : List EventListener → App
  | [] => a
  | listener :: rest => launchListeners (a.emit (.goCallback listener.callback)) rest

/-- `handleApplicationEvent`. -/
def handleApplicationEvent (a : App) (event : Nat) : App :=
  match a.applicationEventListeners.get? event with
  | none => a
  | some listeners => a.launchListeners listeners

/-- `lo.Without(collection, exclude)` on a slice of `*EventListener`: the
elements that are not the pointer `exclude`, in their order. -/
def Without (collection : List EventListener) (exclude : EventListener) :
    List EventListener :=
  collection.filter (fun e => decide (e.addr ≠ exclude.addr))

/-- The function value that `On` returns, closed over `eventID` and
`listener`. -/
def cancelListener (eventID : Nat) (listener : EventListener) (a : App) : App :=
  { a with applicationEventListeners :=
      a.applicationEventListeners.set eventID (Without (a.listenersOf eventID) listener) }

/-- The listener that `On` allocates in the state `a`. -/
def newListener (a : App) (callback : Nat) : EventListener :=
  { addr := a.heapNext, callback := callback }

/-- `On`: the new state and the cancel function. -/
def On (a : App) (eventType : Nat) (callback : Nat) : App × (App → App) :=
  let eventID := eventType
  let listener := a.newListener callback
  let a := { a with heapNext := a.heapNext + 1 }
  let a := { a with applicationEventListeners :=
    a.applicationEventListeners.set eventID (a.listenersOf eventID ++ [listener]) }
  let a := if a.impl.isSome then a.emit (.goImplOn eventID) else a
  (a, cancelListener eventID listener)

/-- Every listener in the map lives at an address the allocator has already
handed out. -/
def HeapOK (a : App) : Prop :=
  ∀ kv ∈ a.applicationEventListeners, ∀ l ∈ kv.2, l.addr < a.heapNext

/-! ### Identifiers -/

/-- `getSystemTrayID`: the identifier and the new state. -/
def getSystemTrayID (a : App) : Nat × App :=
  let a := { a with systemTrayID := (a.systemTrayID + 1) % uintSize }
  (a.systemTrayID, a)

/-- The identifiers of `n` successive `getSystemTrayID` calls, and the state
after them. -/
def getSystemTrayIDs (a : App) : Nat → List Nat × App
  | 0 => ([], a)
  | n + 1 =>
    let (id, a1) := a.getSystemTrayID
    let (ids, a2) := getSystemTrayIDs a1 n
    (id :: ids, a2)

end App

/-- The runnables a trace starts, in the order it starts them. -/
def startedRunnables : List Effect → List Nat
  | [] => []
  | .run r :: rest => r :: startedRunnables rest
  | .goRun r :: rest => r :: startedRunnables rest
  | _ :: rest => startedRunnables rest

/-- Whether an effect is a call of a window's handler. -/
def Effect.isWindowCall : Effect → Bool
  | .windowHandleWindowEvent _ _ => true
  | .windowHandleMessage _ _ => true
  | .windowHandleDragAndDropMessage _ _ => true
  | _ => false

/-- The calls of window handlers in a trace, in order. -/
def windowCalls (t : List Effect) : List Effect :=
  t.filter Effect.isWindowCall

/-- The callbacks a trace launches with `go listener.callback()`, in order. -/
def launchedCallbacks : List Effect → List Nat
  | [] => []
  | .goCallback c :: rest => c :: launchedCallbacks rest
  | _ :: rest => launchedCallbacks rest

/-! ## The main-thread dispatcher -/

/-- What a call of a function value of the caller does: it returns a value,
or it panics and `recover()` yields `v`. -/
inductive Outcome (α : Type) where
  | returned (a : α)
  | panicked (v : Value)

/-- A function value of the caller: a handle, and what a call of it does. The
call itself is recorded in the trace as `Effect.call id`. -/
structure Fn (α : Type) where
  id : Nat
  outcome : Outcome α

/-- How a piece of code hands control back: it returns, it panics, or the
process has exited. -/
inductive Control where
  | returned
  | panicked (v : Value)
  | exited (code : Nat)
  deriving DecidableEq, Repr

/-- The `func()` values that reach `dispatchOnMainThread`: a function of the
caller, or one of the four function literals of the `invokeSync` family. -/
inductive Closure (T : Type) where
  | plain (fn : Fn Unit)
  | invokeSync (fn : Fn Unit)
  | invokeSyncWithResult (fn : Fn T)
  | invokeSyncWithError (fn : Fn GoError)
  | invokeSyncWithResultAndError (fn : Fn (T × GoError))

/-- The package-level state the dispatcher works on, and the variables of
the one `invokeSync` call in flight that its function literal captures. -/
structure World (T : Type) where
  globalApplication : App
  mainThreadFunctionStore : GoMap Nat (Closure T)
  /-- ids handed to `impl.dispatchOnMainThread` that the adapter has not yet
  served -/
  adapterQueue : List Nat
  /-- counter of `var wg sync.WaitGroup` -/
  wg : Nat
  /-- the named result `res` -/
  res : T
  /-- the named result `err` -/
  err : GoError

/-- What the caller of an `invokeSync` function gets: the values returned
once `wg.Wait()` has completed; `blocked` when the counter is still positive
after every dispatched closure has run, so that `wg.Wait()` never completes;
or the panic or exit that ended the call. -/
inductive Wait (α : Type) where
  | done (a : α)
  | blocked
  | panicked (v : Value)
  | exited (code : Nat)

namespace World

variable {T : Type}

/-- Record an effect. -/
def emit (w : World T) (e : Effect) : World T :=
  { w with globalApplication := w.globalApplication.emit e }

/-- The trace of the world. -/
def trace (w : World T) : List Effect :=
  w.globalApplication.trace

end World

section Dispatcher

variable {T : Type}

/-- `processPanic`. -/
def processPanic (value : Value) (w : World T) : Control × World T :=
  let value := if value = Value.nil then Value.error "unknown error" else value
  if w.globalApplication.options.PanicHandler then
    (.returned, w.emit (.panicHandler value))
  else
    (.exited 1, (w.emit (.printPanic value)).emit (.exit 1))

/-- The deferred `func() { if err := recover(); err != nil { processPanic(err) } }`
of the function literals, run while the body panics with `v`. -/
def recoverPanic (v : Value) (w : World T) : Control × World T :=
  if v ≠ Value.nil then processPanic v w else (.returned, w)

/-- `wg.Done()`: a counter that would go negative panics. -/
def wgDone (w : World T) : Control × World T :=
  if w.wg = 0 then (.panicked (.str "sync: negative WaitGroup counter"), w)
  else (.returned, { w with wg := w.wg - 1 })

/-- The statement `wg.Done()` that ends the body of the function literals,
under their deferred recover. -/
def doneUnderRecover (w : World T) : Control × World T :=
  match wgDone w with
  | (.panicked v, w) => recoverPanic v w
  | r => r

/-- A call of a `func()` value. -/
def Closure.run : Closure T → World T → Control × World T
  | .plain fn, w =>
    let w := w.emit (.call fn.id)
    match fn.outcome with
    | .returned _ => (.returned, w)
    | .panicked v => (.panicked v, w)
  | .invokeSync fn, w =>
    let w := w.emit (.call fn.id)
    match fn.outcome with
    | .returned _ => doneUnderRecover w
    | .panicked v => recoverPanic v w
  | .invokeSyncWithResult fn, w =>
    let w := w.emit (.call fn.id)
    match fn.outcome with
    | .returned r => doneUnderRecover { w with res := r }
    | .panicked v => recoverPanic v w
  | .invokeSyncWithError fn, w =>
    let w := w.emit (.call fn.id)
    match fn.outcome with
    | .returned e => doneUnderRecover { w with err := e }
    | .panicked v => recoverPanic v w
  | .invokeSyncWithResultAndError fn, w =>
    let w := w.emit (.call fn.id)
    match fn.outcome with
    | .returned (r, e) => doneUnderRecover { w with res := r, err := e }
    | .panicked v => recoverPanic v w

/-- `dispatchOnMainThread`. The generator `generateFunctionStoreID` of the
package is the parameter `gen`, a function of the store. -/
def dispatchOnMainThread (gen : GoMap Nat (Closure T) → Nat) (fn : Closure T)
    (w : World T) : Control × World T :=
  match w.globalApplication.impl with
  | none => (.panicked (.error "runtime error: invalid memory address or nil pointer dereference"),
      w)
  | some impl =>
    if impl.isOnMainThread then
      fn.run w
    else
      let id := gen w.mainThreadFunctionStore
      let w := { w with mainThreadFunctionStore := w.mainThreadFunctionStore.set id fn }
      let w := w.emit (.implDispatchOnMainThread id)
      (.returned, { w with adapterQueue := w.adapterQueue ++ [id] })

/-- Modelled from the spec: the platform adapter's side of
`dispatchOnMainThread(pendingID)`, which is not in the sources: the main loop
executes the closure registered under that id. -/
def adapterInvoke (id : Nat) (w : World T) : Control × World T :=
  match w.mainThreadFunctionStore.get? id with
  | none => (.returned, w)
  | some fn => fn.run w

/-- Modelled from the spec: the platform adapter serves the dispatch requests
it was handed, in the order it got them (`ids` is the queue), until one of
them ends the process. -/
def adapterPump : List Nat → World T → Control × World T
  | [], w => (.returned, w)
  | id :: rest, w =>
    match adapterInvoke id { w with adapterQueue := rest } with
    | (.returned, w) => adapterPump rest w
    | r => r

/-- The `wg.Wait()` of the `invokeSync` family and what follows it, after
`dispatchOnMainThread` has handed control back with `c`. A caller that is
not on the main thread waits while the adapter serves its queue on the main
thread; a caller on the main thread keeps the main thread to itself. The
wait completes when the counter is zero. -/
def waitAndReturn {α : Type} (result : World T → α) (c : Control) (w : World T) :
    Wait α × World T :=
  match c with
  | .panicked v => (.panicked v, w)
  | .exited code => (.exited code, w)
  | .returned =>
    let served :=
      match w.globalApplication.impl with
      | some impl => if impl.isOnMainThread then (Control.returned, w)
                     else adapterPump w.adapterQueue w
      | none => (Control.returned, w)
    match served with
    | (.panicked v, w) => (.panicked v, w)
    | (.exited code, w) => (.exited code, w)
    | (.returned, w) => if w.wg = 0 then (.done (result w), w) else (.blocked, w)

/-- `invokeSync`. -/
def invokeSync (gen : GoMap Nat (Closure T) → Nat) (fn : Fn Unit) (w : World T) :
    Wait Unit × World T :=
  let w := { w with wg := 0 + 1 }
  let (c, w) := dispatchOnMainThread gen (.invokeSync fn) w
  waitAndReturn (fun _ => ()) c w

/-- `invokeSyncWithResult`; `default` is the zero value of `T`. -/
def invokeSyncWithResult [Inhabited T] (gen : GoMap Nat (Closure T) → Nat) (fn : Fn T)
    (w : World T) : Wait T × World T :=
  let w := { w with wg := 0 + 1, res := default }
  let (c, w) := dispatchOnMainThread gen (.invokeSyncWithResult fn) w
  waitAndReturn (fun w => w.res) c w

/-- `invokeSyncWithError`. -/
def invokeSyncWithError (gen : GoMap Nat (Closure T) → Nat) (fn : Fn GoError)
    (w : World T) : Wait GoError × World T :=
  let w := { w with wg := 0 + 1, err := none }
  let (c, w) := dispatchOnMainThread gen (.invokeSyncWithError fn) w
  waitAndReturn (fun w => w.err) c w

/-- `invokeSyncWithResultAndError`; `default` is the zero value of `T`. -/
def invokeSyncWithResultAndError [Inhabited T] (gen : GoMap Nat (Closure T) → Nat)
    (fn : Fn (T × GoError)) (w : World T) : Wait (T × GoError) × World T :=
  let w := { w with wg := 0 + 1, res := default, err := none }
  let (c, w) := dispatchOnMainThread gen (.invokeSyncWithResultAndError fn) w
  waitAndReturn (fun w => (w.res, w.err)) c w

end Dispatcher

/-- How often a trace calls the function value `fn`. -/
def callsOf (fn : Nat) (t : List Effect) : Nat :=
  t.count (Effect.call fn)

/-- The values a trace hands to the custom panic handler, in order. -/
def panicHandlerCalls : List Effect → List Value
  | [] => []
  | .panicHandler v :: rest => v :: panicHandlerCalls rest
  | _ :: rest => panicHandlerCalls rest

/-- The ids a trace hands to `impl.dispatchOnMainThread`, in order. -/
def dispatchedIds : List Effect → List Nat
  | [] => []
  | .implDispatchOnMainThread id :: rest => id :: dispatchedIds rest
  | _ :: rest => dispatchedIds rest

/-- What a call of a closure leaves alone: the function store, the adapter's
queue, the ids handed to the adapter and the adapter itself. -/
def Untouched {T : Type} (w w1 : World T) : Prop :=
  w1.mainThreadFunctionStore = w.mainThreadFunctionStore ∧
  w1.adapterQueue = w.adapterQueue ∧
  dispatchedIds w1.trace = dispatchedIds w.trace ∧
  w1.globalApplication.impl = w.globalApplication.impl

/-- A generator of store ids for the examples: one more than the largest id
bound in the store. -/
def maxPlusOne {T : Type} (store : GoMap Nat (Closure T)) : Nat :=
  (store.map Prod.fst).foldr max 0 + 1

/-- A world for the examples: the application of `New` with an adapter that
answers `onMain` to `isOnMainThread()`, with or without a custom panic
handler, an empty function store and no dispatch pending. -/
def exampleWorld (onMain handler : Bool) : World Nat :=
  { globalApplication := { New ⟨handler⟩ with impl := some ⟨onMain⟩ }
    mainThreadFunctionStore := []
    adapterQueue := []
    wg := 0
    res := 0
    err := none }

/-! ## Web-view asset requests -/

/-- `http.Header`, a `map[string][]string`. -/
abbrev Header := GoMap String (List String)

/-- `validHeaderFieldByte` of `net/textproto`: the token characters of
RFC 7230. -/
def validHeaderFieldByte (c : Char) : Bool :=
  c.isAlphanum ||
    [Char.ofNat 33, Char.ofNat 35, Char.ofNat 36, Char.ofNat 37, Char.ofNat 38,
     Char.ofNat 39, Char.ofNat 42, Char.ofNat 43, Char.ofNat 45, Char.ofNat 46,
     Char.ofNat 94, Char.ofNat 95, Char.ofNat 96, Char.ofNat 124, Char.ofNat 126].contains c

/-- The rewriting loop of `canonicalMIMEHeaderKey`: upper case for the first
letter and for a letter after a dash, lower case for the others. -/
def canonicalChars : Bool → List Char → List Char
  | _, [] => []
  | upper, c :: rest =>
    let c := if upper then c.toUpper else c.toLower
    c :: canonicalChars (c == Char.ofNat 45) rest

/-- `textproto.CanonicalMIMEHeaderKey`: a key with a space or an invalid
header field byte is returned without modifications. -/
def CanonicalMIMEHeaderKey (s : String) : String :=
  if s.data.all validHeaderFieldByte then String.mk (canonicalChars true s.data) else s

/-- `strconv.FormatUint(i, base)`. -/
def FormatUint (i : Nat) (base : Nat) : String :=
  String.mk (Nat.toDigits base i)

namespace Header

/-- `h.Set(key, value)` on the contents of the map. -/
def Set (h : Header) (key value : String) : Header :=
  GoMap.set h (CanonicalMIMEHeaderKey key) [value]

/-- `h.Values(key)`. -/
def Values (h : Header) (key : String) : List String :=
  (GoMap.get? h (CanonicalMIMEHeaderKey key)).getD []

/-- `h.Get(key)`: the first value under the key, or `""`. -/
def Get (h : Header) (key : String) : String :=
  (Values h key).headD ""

end Header

/-- The allocated `http.Header` maps: a map lives at its index. -/
structure Heap where
  headers : List Header
  deriving DecidableEq, Repr

/-- A value of type `http.Header`: `none` is the nil map, `some addr` the
map allocated at `addr`. -/
abbrev HeaderRef := Option Nat

namespace Heap

/-- The map at an address. -/
def read (hp : Heap) (addr : Nat) : Option Header :=
  hp.headers[addr]?

/-- The map a header value stands for: none for the nil map (and for an
address at which no map lives, which no Go value is). -/
def deref (hp : Heap) (ref : HeaderRef) : Option Header :=
  match ref with
  | none => none
  | some addr => hp.read addr

/-- Allocation of a map: its address, and the heap with it. -/
def alloc (hp : Heap) (h : Header) : Nat × Heap :=
  (hp.headers.length, { headers := hp.headers ++ [h] })

/-- `h.Clone()`: nil for the nil map, else a new map with the same
entries. -/
def clone (hp : Heap) (ref : HeaderRef) : HeaderRef × Heap :=
  match hp.deref ref with
  | none => (none, hp)
  | some h => ((hp.alloc h).1, (hp.alloc h).2)

/-- `h.Set(key, value)`, in place: the heap after it, or the value of the
panic that the assignment to an entry of the nil map raises. -/
def set (hp : Heap) (ref : HeaderRef) (key value : String) : Except Value Heap :=
  match ref with
  | none => .error (.error "assignment to entry in nil map")
  | some addr =>
    match hp.read addr with
    | none => .error (.error "assignment to entry in nil map")
    | some h => .ok { headers := hp.headers.set addr (h.Set key value) }

end Heap

/-- The constant `webViewRequestHeaderWindowId`. -/
def webViewRequestHeaderWindowId : String := "x-wails-window-id"

/-- The constant `webViewRequestHeaderWindowName`. -/
def webViewRequestHeaderWindowName : String := "x-wails-window-name"

/-- A `webViewAssetRequest`. Of the embedded `webview.Request` the model
keeps what its `Header()` returns: an error, or with a nil error a header
value, which is the nil map or an allocated map. -/
structure webViewAssetRequest where
  Request_Header : Except String HeaderRef
  windowId : Nat
  windowName : String

/-- `(*webViewAssetRequest).Header`: it returns `(nil, err)` or `(hh, nil)`,
or it panics. -/
def webViewAssetRequest.Header (r : webViewAssetRequest) (hp : Heap) :
    Outcome (Except String HeaderRef) × Heap :=
  match r.Request_Header with
  | .error err => (.returned (.error err), hp)
  | .ok h =>
    let hh := (hp.clone h).1
    let hp := (hp.clone h).2
    match hp.set hh webViewRequestHeaderWindowId (FormatUint r.windowId 10) with
    | .error v => (.panicked v, hp)
    | .ok hp => (.returned (.ok hh), hp)

/-! ## The panic policy -/

/-- The exit codes a trace hands to `os.Exit`, in order. -/
def exitCodes : List Effect → List Nat
  | [] => []
  | .exit code :: rest => code :: exitCodes rest
  | _ :: rest => exitCodes rest

/-- The value `processPanic` works with after its first statement: the error
`unknown error` for nil, the value itself otherwise. -/
def orUnknownError (value : Value) : Value :=
  if value = Value.nil then Value.error "unknown error" else value

/-! ## The entry point -/

section EntryPoint

variable {T : Type}

/-- `Run`, on the application `globalApplication`. `impl` is what
`newPlatformApp(a)` returns, `GOOS` is `runtime.GOOS`, and `run` is what the
blocking call `a.impl.run()` does: it returns an error or nil, or it panics
and the deferred recover of `Run` takes over. The result is how `Run` hands
control back, the error it returns, and the state. -/
def Run (impl : platformApp) (GOOS : String) (run : Outcome GoError) (w : World T) :
    Control × GoError × World T :=
  let w := w.emit (.log "INFO" "Starting application")
  let w := { w with globalApplication := { w.globalApplication with impl := some impl } }
  let w := w.emit (.goDispatchLoop "applicationEvents")
  let w := w.emit (.goDispatchLoop "windowEvents")
  let w := w.emit (.goDispatchLoop "webviewRequests")
  let w := w.emit (.goDispatchLoop "windowMessageBuffer")
  let w := w.emit (.goDispatchLoop "windowDragAndDropBuffer")
  let w := w.emit (.goDispatchLoop "menuItemClicked")
  let w := { w with globalApplication := w.globalApplication.runStart }
  let w := if GOOS = "darwin" ∨ GOOS = "linux" then w.emit .implSetApplicationMenu else w
  let w := w.emit .implSetIcon
  let w := w.emit .implRun
  match run with
  | .panicked v =>
    let (c, w) := recoverPanic v w
    (c, none, w)
  | .returned err =>
    if err ≠ none then
      (.returned, err, w)
    else
      let w := w.emit .pluginsShutdown
      (.returned, none, w)

end EntryPoint

/-- How often a trace calls `a.plugins.Shutdown()`. -/
def shutdownCalls (t : List Effect) : Nat :=
  t.count Effect.pluginsShutdown

/-- The world of the entry point before `Run`: the application that `New`
builds, nothing dispatched. -/
def freshWorld (handler : Bool) : World Nat :=
  { globalApplication := New ⟨handler⟩
    mainThreadFunctionStore := []
    adapterQueue := []
    wg := 0
    res := 0
    err := none }

/-! ## The icon command (`exp/internal/commands/icon.go`) -/

/-- `IconOptions`. -/
structure IconOptions where
  Input : String
  Sizes : String
  WindowsFilename : String
  MacFilename : String
  deriving DecidableEq, Repr

/-- `(*IconOptions).Default`. -/
def IconOptions.Default : IconOptions :=
  { Input := ""
    Sizes := "256,128,64,48,32,16"
    MacFilename := "icons.icns"
    WindowsFilename := "icons.ico" }

/-- `strings.Split` for a separator of one character, on the characters of
the string: the pieces between the separators, one more than there are
separators. -/
def splitChars (sep : Char) : List Char → List (List Char)
  | [] => [[]]
  | c :: rest =>
    if c = sep then [] :: splitChars sep rest
    else
      match splitChars sep rest with
      | [] => [[c]]
      | f :: fs => (c :: f) :: fs

/-- `strings.Split(s, sep)` for a separator of one character. -/
def Split (s : String) (sep : Char) : List String :=
  (splitChars sep s.data).map String.mk

/-- The two errors of `strconv`. -/
inductive NumErr where
  | ErrSyntax
  | ErrRange
  deriving DecidableEq, Repr

/-- `strconv.NumError`. -/
structure NumError where
  Func : String
  Num : String
  Err : NumErr
  deriving DecidableEq, Repr

/-- The sign that `strconv` reads off the front: whether it is `-`, and the
rest. -/
def splitSign : List Char → Bool × List Char
  | [] => (false, [])
  | c :: ds =>
    if c = '+' then (false, ds)
    else if c = '-' then (true, ds)
    else (false, c :: ds)

/-- The digit loop of `strconv.ParseUint` in base 10 with 64 bits: a
character that is no digit is a syntax error, a value of `2 ^ 64` or more a
range error, whichever comes first. -/
def parseUintLoop (s0 : String) : List Char → Nat → Except NumError Nat
  | [], n => .ok n
  | c :: rest, n =>
    if c.isDigit then
      let n1 := n * 10 + (c.toNat - 48)
      if 2 ^ 64 ≤ n1 then .error ⟨"Atoi", s0, .ErrRange⟩
      else parseUintLoop s0 rest n1
    else .error ⟨"Atoi", s0, .ErrSyntax⟩

/-- `strconv.Atoi` with a 64-bit `int`: an optional sign and one or more
decimal digits, the value within `-2 ^ 63 .. 2 ^ 63 - 1`. -/
def Atoi (s : String) : Except NumError Int :=
  let neg := (splitSign s.data).1
  let digits := (splitSign s.data).2
  if digits.isEmpty then .error ⟨"Atoi", s, .ErrSyntax⟩
  else
    match parseUintLoop s digits 0 with
    | .error err => .error err
    | .ok un =>
      if !neg && decide (2 ^ 63 ≤ un) then .error ⟨"Atoi", s, .ErrRange⟩
      else if neg && decide (2 ^ 63 < un) then .error ⟨"Atoi", s, .ErrRange⟩
      else .ok (if neg then -(un : Int) else (un : Int))

/-- The loop of `parseSizes` from index `i` on, over the fields that are
left, with the slice `result`. -/
def parseSizesLoop : List String → Nat → List Int → Except NumError (List Int)
  | [], _, result => .ok result
  | size :: rest, i, result =>
    match Atoi size with
    | .error err => .error err
    | .ok s =>
      if s = 0 then parseSizesLoop rest (i + 1) result
      else parseSizesLoop rest (i + 1) (result.set i s)

/-- `parseSizes`: the slice, or the error. -/
def parseSizes (sizes : String) : Except NumError (List Int) :=
  let parsedSizes := Split sizes ','
  let result := List.replicate parsedSizes.length (0 : Int)
  parseSizesLoop parsedSizes 0 result

/-- The value of a run of decimal digits. -/
def decimalValue (ds : List Char) : Nat :=
  ds.foldl (fun n c => n * 10 + (c.toNat - 48)) 0

/-- A field that is a valid integer, in the words of the comment of
`parseSizes`: an optional sign, then one or more decimal digits, with a
value that an `int` holds. -/
def validInteger (f : String) : Bool :=
  let neg := (splitSign f.data).1
  let ds := (splitSign f.data).2
  !ds.isEmpty && ds.all Char.isDigit &&
    (if neg then decide (decimalValue ds ≤ 2 ^ 63) else decide (decimalValue ds < 2 ^ 63))

/-- The integer value of a field that is a valid integer. -/
def integerValue (f : String) : Int :=
  if (splitSign f.data).1 then -(decimalValue (splitSign f.data).2 : Int)
  else (decimalValue (splitSign f.data).2 : Int)

/-! ## Theorems -/

section Maps

variable {κ ν : Type} [DecidableEq κ]

theorem GoMap.get?_set_self (m : GoMap κ ν) (k : κ) (v : ν) :
    (m.set k v).get? k = some v := by
  induction m with
  | nil => simp [GoMap.set, GoMap.get?]
  | cons b m ih =>
    obtain ⟨k', v'⟩ := b
    by_cases h : k' = k <;> simp [GoMap.set, GoMap.get?, h, ih]

theorem GoMap.get?_set_ne (m : GoMap κ ν) (k j : κ) (v : ν) (h : j ≠ k) :
    (m.set k v).get? j = m.get? j := by
  induction m with
  | nil => simp [GoMap.set, GoMap.get?, Ne.symm h]
  | cons b m ih =>
    obtain ⟨k', v'⟩ := b
    by_cases h1 : k' = k
    · subst h1
      simp [GoMap.set, GoMap.get?, Ne.symm h]
    · by_cases h2 : k' = j
      · subst h2
        simp [GoMap.set, GoMap.get?, h]
      · simp [GoMap.set, GoMap.get?, h1, h2, ih]

theorem GoMap.set_set (m : GoMap κ ν) (k : κ) (v w : ν) :
    (m.set k v).set k w = m.set k w := by
  induction m with
  | nil => simp [GoMap.set]
  | cons b m ih =>
    obtain ⟨k', v'⟩ := b
    by_cases h : k' = k <;> simp [GoMap.set, h, ih]

theorem GoMap.mem_set (m : GoMap κ ν) (k : κ) (v : ν) (b : κ × ν)
    (h : b ∈ m.set k v) : b ∈ m ∨ b = (k, v) := by
  induction m with
  | nil => simpa [GoMap.set] using h
  | cons c m ih =>
    obtain ⟨k', v'⟩ := c
    by_cases hk : k' = k
    · simp only [GoMap.set, hk, if_true, List.mem_cons] at h
      rcases h with h | h
      · exact Or.inr h
      · exact Or.inl (List.mem_cons_of_mem _ h)
    · simp only [GoMap.set, hk, if_false, List.mem_cons] at h
      rcases h with h | h
      · exact Or.inl (h ▸ List.mem_cons_self _ _)
      · rcases ih h with h | h
        · exact Or.inl (List.mem_cons_of_mem _ h)
        · exact Or.inr h

theorem GoMap.get?_mem (m : GoMap κ ν) (k : κ) (v : ν) (h : m.get? k = some v) :
    (k, v) ∈ m := by
  induction m with
  | nil => simp [GoMap.get?] at h
  | cons c m ih =>
    obtain ⟨k', v'⟩ := c
    by_cases hk : k' = k
    · simp only [GoMap.get?, hk, if_true, Option.some.injEq] at h
      simp [hk, h]
    · simp only [GoMap.get?, hk, if_false] at h
      exact List.mem_cons_of_mem _ (ih h)

theorem GoMap.get?_delete_self (m : GoMap κ ν) (k : κ) :
    (m.delete k).get? k = none := by
  induction m with
  | nil => simp [GoMap.delete, GoMap.get?]
  | cons c m ih =>
    obtain ⟨k', v'⟩ := c
    by_cases hk : k' = k <;> simp [GoMap.delete, GoMap.get?, hk, ih]

theorem GoMap.get?_delete_ne (m : GoMap κ ν) (k j : κ) (h : j ≠ k) :
    (m.delete k).get? j = m.get? j := by
  induction m with
  | nil => simp [GoMap.delete, GoMap.get?]
  | cons c m ih =>
    obtain ⟨k', v'⟩ := c
    by_cases hk : k' = k
    · subst hk
      simp [GoMap.delete, GoMap.get?, Ne.symm h, ih]
    · by_cases h2 : k' = j
      · subst h2
        simp [GoMap.delete, GoMap.get?, h]
      · simp [GoMap.delete, GoMap.get?, hk, h2, ih]

end Maps

section PendingRun

theorem App.launchPending_eq (a : App) (rs : List Nat) :
    a.launchPending rs = { a with trace := a.trace ++ rs.map Effect.goRun } := by
  induction rs generalizing a with
  | nil => simp [App.launchPending]
  | cons r rs ih => simp [App.launchPending, ih, App.emit]

theorem App.submitAll_not_running (a : App) (rs : List Nat) (h : a.running = false) :
    a.submitAll rs = { a with pendingRun := a.pendingRun ++ rs } := by
  induction rs generalizing a with
  | nil => simp [App.submitAll]
  | cons r rs ih =>
    have step : a.runOrDeferToAppRun r = { a with pendingRun := a.pendingRun ++ [r] } := by
      simp [App.runOrDeferToAppRun, h]
    have hr : ({ a with pendingRun := a.pendingRun ++ [r] } : App).running = false := h
    simp only [App.submitAll, List.foldl_cons] at ih ⊢
    rw [step, ih _ hr]
    simp

theorem App.submitAll_running (a : App) (rs : List Nat) (h : a.running = true) :
    a.submitAll rs = { a with trace := a.trace ++ rs.map Effect.run } := by
  induction rs generalizing a with
  | nil => simp [App.submitAll]
  | cons r rs ih =>
    have step : a.runOrDeferToAppRun r = a.emit (.run r) := by
      simp [App.runOrDeferToAppRun, h]
    have hr : (a.emit (.run r)).running = true := h
    simp only [App.submitAll, List.foldl_cons] at ih ⊢
    rw [step, ih _ hr]
    simp [App.emit]

theorem startedRunnables_append (s t : List Effect) :
    startedRunnables (s ++ t) = startedRunnables s ++ startedRunnables t := by
  induction s with
  | nil => simp [startedRunnables]
  | cons e s ih => cases e <;> simp [startedRunnables, ih]

theorem startedRunnables_goRun (rs : List Nat) :
    startedRunnables (rs.map Effect.goRun) = rs := by
  induction rs with
  | nil => simp [startedRunnables]
  | cons r rs ih => simp [startedRunnables, ih]

theorem startedRunnables_run (rs : List Nat) :
    startedRunnables (rs.map Effect.run) = rs := by
  induction rs with
  | nil => simp [startedRunnables]
  | cons r rs ih => simp [startedRunnables, ih]

/-- C1: on the `App` built by `New`, runnables submitted before the start
transition of `Run` are queued and not run; the transition launches them in
registration order and empties the queue; runnables submitted afterwards run
at once; the runnables started overall are exactly the submitted ones, each
once, none dropped. -/
theorem pendingRun_started_exactly_once (o : Options) (pre post : List Nat) :
    let a1 := (New o).submitAll pre
    let a2 := a1.runStart
    let a3 := a2.submitAll post
    (a1.trace = [] ∧ a1.pendingRun = pre ∧ a1.running = false) ∧
    (a2.trace = pre.map Effect.goRun ∧ a2.pendingRun = [] ∧ a2.running = true) ∧
    (a3.trace = pre.map Effect.goRun ++ post.map Effect.run ∧ a3.pendingRun = []) ∧
    startedRunnables a3.trace = pre ++ post ∧
    (∀ r, (startedRunnables a3.trace).count r = (pre ++ post).count r) := by
  have h1 : (New o).submitAll pre = { New o with pendingRun := pre } := by
    rw [App.submitAll_not_running _ _ rfl]; simp [New]
  have h2 : ({ New o with pendingRun := pre } : App).runStart
      = { New o with running := true, trace := pre.map Effect.goRun } := by
    simp [App.runStart, App.launchPending_eq, New]
  have h3 : ({ New o with running := true, trace := pre.map Effect.goRun } : App).submitAll post
      = { New o with running := true, trace := pre.map Effect.goRun ++ post.map Effect.run } := by
    rw [App.submitAll_running _ _ rfl]
  have hs : startedRunnables (pre.map Effect.goRun ++ post.map Effect.run) = pre ++ post := by
    rw [startedRunnables_append, startedRunnables_goRun, startedRunnables_run]
  simp only [h1, h2, h3, hs]
  simp [New]

end PendingRun

section Routing

theorem windowCalls_append (s t : List Effect) :
    windowCalls (s ++ t) = windowCalls s ++ windowCalls t := by
  simp [windowCalls]

/-- C4: a window event, a scripted message or a drag-and-drop envelope whose
id is bound to a window in the registry calls the handler of that window
once with the payload of the envelope, and nothing else; one whose id is not
bound (unknown, or deleted with `deleteWindowByID`) logs a line, calls no
window handler and leaves the registry as it is. -/
theorem window_envelope_routing (a : App) (we : WindowEvent) (wm : windowMessage)
    (dd : dragAndDropMessage) :
    (∀ w, a.windows.get? we.WindowID = some w →
      a.handleWindowEvent we = a.emit (.windowHandleWindowEvent w we.EventID) ∧
      windowCalls (a.handleWindowEvent we).trace
        = windowCalls a.trace ++ [.windowHandleWindowEvent w we.EventID]) ∧
    (∀ w, a.windows.get? wm.windowId = some w →
      a.handleWindowMessage wm = a.emit (.windowHandleMessage w wm.message) ∧
      windowCalls (a.handleWindowMessage wm).trace
        = windowCalls a.trace ++ [.windowHandleMessage w wm.message]) ∧
    (∀ w, a.windows.get? dd.windowId = some w →
      a.handleDragAndDropMessage dd = a.emit (.windowHandleDragAndDropMessage w dd) ∧
      windowCalls (a.handleDragAndDropMessage dd).trace
        = windowCalls a.trace ++ [.windowHandleDragAndDropMessage w dd]) ∧
    (a.windows.get? we.WindowID = none →
      a.handleWindowEvent we = a.emit (.logPrintf (App.windowNotFound we.WindowID)) ∧
      windowCalls (a.handleWindowEvent we).trace = windowCalls a.trace) ∧
    (a.windows.get? wm.windowId = none →
      a.handleWindowMessage wm = a.emit (.logPrintf (App.windowNotFound wm.windowId)) ∧
      windowCalls (a.handleWindowMessage wm).trace = windowCalls a.trace) ∧
    (a.windows.get? dd.windowId = none →
      a.handleDragAndDropMessage dd = a.emit (.logPrintf (App.windowNotFound dd.windowId)) ∧
      windowCalls (a.handleDragAndDropMessage dd).trace = windowCalls a.trace) ∧
    ((a.handleWindowEvent we).windows = a.windows ∧
      (a.handleWindowMessage wm).windows = a.windows ∧
      (a.handleDragAndDropMessage dd).windows = a.windows) ∧
    (windowCalls ((a.deleteWindowByID we.WindowID).handleWindowEvent we).trace
        = windowCalls a.trace ∧
      windowCalls ((a.deleteWindowByID wm.windowId).handleWindowMessage wm).trace
        = windowCalls a.trace ∧
      windowCalls ((a.deleteWindowByID dd.windowId).handleDragAndDropMessage dd).trace
        = windowCalls a.trace) := by
  refine ⟨?_, ?_, ?_, ?_, ?_, ?_, ?_, ?_⟩
  · intro w h
    simp [App.handleWindowEvent, h, App.emit, windowCalls, Effect.isWindowCall]
  · intro w h
    simp [App.handleWindowMessage, h, App.emit, windowCalls, Effect.isWindowCall]
  · intro w h
    simp [App.handleDragAndDropMessage, h, App.emit, windowCalls, Effect.isWindowCall]
  · intro h
    simp [App.handleWindowEvent, h, App.emit, windowCalls, Effect.isWindowCall]
  · intro h
    simp [App.handleWindowMessage, h, App.emit, windowCalls, Effect.isWindowCall]
  · intro h
    simp [App.handleDragAndDropMessage, h, App.emit, windowCalls, Effect.isWindowCall]
  · refine ⟨?_, ?_, ?_⟩
    · unfold App.handleWindowEvent
      cases a.windows.get? we.WindowID <;> rfl
    · unfold App.handleWindowMessage
      cases a.windows.get? wm.windowId <;> rfl
    · unfold App.handleDragAndDropMessage
      cases a.windows.get? dd.windowId <;> rfl
  · refine ⟨?_, ?_, ?_⟩
    · simp [App.handleWindowEvent, App.deleteWindowByID, GoMap.get?_delete_self,
        App.emit, windowCalls, Effect.isWindowCall]
    · simp [App.handleWindowMessage, App.deleteWindowByID, GoMap.get?_delete_self,
        App.emit, windowCalls, Effect.isWindowCall]
    · simp [App.handleDragAndDropMessage, App.deleteWindowByID, GoMap.get?_delete_self,
        App.emit, windowCalls, Effect.isWindowCall]

/-- C4 on a registry with window `101` under id 1 and window `102` under
id 2: an event for id 2 reaches window `102`, a message for id 3 is logged
and dropped. -/
theorem window_envelope_routing_witness :
    let a : App := { New ⟨true⟩ with windows := [(1, 101), (2, 102)] }
    (a.handleWindowEvent ⟨2, 7⟩).trace = [.windowHandleWindowEvent 102 7] ∧
    (a.handleWindowMessage ⟨3, "hi"⟩).trace = [.logPrintf "WebviewWindow #3 not found"] := by
  intro a
  have h := window_envelope_routing a ⟨2, 7⟩ ⟨3, "hi"⟩ ⟨1, []⟩
  refine ⟨?_, ?_⟩
  · rw [(h.1 102 (by decide)).1]; rfl
  · rw [(h.2.2.2.2.1 (by decide)).1]; decide

end Routing

section Listeners

theorem App.launchListeners_eq (a : App) (ls : List EventListener) :
    a.launchListeners ls
      = { a with trace := a.trace ++ ls.map (fun l => Effect.goCallback l.callback) } := by
  induction ls generalizing a with
  | nil => simp [App.launchListeners]
  | cons l ls ih => simp [App.launchListeners, ih, App.emit]

theorem launchedCallbacks_append (s t : List Effect) :
    launchedCallbacks (s ++ t) = launchedCallbacks s ++ launchedCallbacks t := by
  induction s with
  | nil => simp [launchedCallbacks]
  | cons e s ih => cases e <;> simp [launchedCallbacks, ih]

theorem launchedCallbacks_goCallback (ls : List EventListener) :
    launchedCallbacks (ls.map (fun l => Effect.goCallback l.callback))
      = ls.map EventListener.callback := by
  induction ls with
  | nil => simp [launchedCallbacks]
  | cons l ls ih => simp [launchedCallbacks, ih]

theorem App.handleApplicationEvent_eq (a : App) (event : Nat) :
    a.handleApplicationEvent event
      = { a with trace := a.trace ++
            (a.listenersOf event).map (fun l => Effect.goCallback l.callback) } := by
  unfold App.handleApplicationEvent App.listenersOf
  cases h : a.applicationEventListeners.get? event with
  | none => simp
  | some ls => simp [App.launchListeners_eq]

theorem App.listenersOf_On_self (a : App) (e cb : Nat) :
    (a.On e cb).1.listenersOf e = a.listenersOf e ++ [a.newListener cb] := by
  unfold App.On
  by_cases hi : a.impl.isSome <;>
    simp [App.listenersOf, hi, App.emit, GoMap.get?_set_self]

theorem App.listenersOf_On_ne (a : App) (e cb j : Nat) (h : j ≠ e) :
    (a.On e cb).1.listenersOf j = a.listenersOf j := by
  unfold App.On
  by_cases hi : a.impl.isSome <;>
    simp [App.listenersOf, hi, App.emit, GoMap.get?_set_ne _ _ _ _ h]

theorem App.heapNext_On (a : App) (e cb : Nat) :
    (a.On e cb).1.heapNext = a.heapNext + 1 := by
  unfold App.On
  by_cases hi : a.impl.isSome <;> simp [hi, App.emit]

/-- C5: `handleApplicationEvent` launches, with `go`, the callback of each
listener bound to the event type, once each and in registration order, and
nothing else (so no listener of another event type); after two `On` calls
for one event type both callbacks are launched, after the earlier ones. -/
theorem handleApplicationEvent_fans_out (a : App) (e c1 c2 : Nat) :
    (a.handleApplicationEvent e).trace
      = a.trace ++ (a.listenersOf e).map (fun l => Effect.goCallback l.callback) ∧
    launchedCallbacks (a.handleApplicationEvent e).trace
      = launchedCallbacks a.trace ++ (a.listenersOf e).map EventListener.callback ∧
    (a.handleApplicationEvent e).applicationEventListeners = a.applicationEventListeners ∧
    (let a2 := ((a.On e c1).1.On e c2).1
     launchedCallbacks (a2.handleApplicationEvent e).trace
      = launchedCallbacks a2.trace
        ++ ((a.listenersOf e).map EventListener.callback ++ [c1, c2])) ∧
    (∀ j, j ≠ e →
      launchedCallbacks (((a.On e c1).1).handleApplicationEvent j).trace
        = launchedCallbacks (a.On e c1).1.trace
          ++ (a.listenersOf j).map EventListener.callback) := by
  refine ⟨?_, ?_, ?_, ?_, ?_⟩
  · rw [App.handleApplicationEvent_eq]
  · rw [App.handleApplicationEvent_eq]
    simp [launchedCallbacks_append, launchedCallbacks_goCallback]
  · rw [App.handleApplicationEvent_eq]
  · intro a2
    rw [App.handleApplicationEvent_eq]
    simp only [launchedCallbacks_append, launchedCallbacks_goCallback]
    simp [a2, App.listenersOf_On_self, App.newListener]
  · intro j hj
    rw [App.handleApplicationEvent_eq]
    simp only [launchedCallbacks_append, launchedCallbacks_goCallback]
    rw [App.listenersOf_On_ne _ _ _ _ hj]

theorem App.HeapOK_New (o : Options) : (New o).HeapOK := by
  intro kv hkv
  simp [New] at hkv

theorem App.HeapOK.listenersOf {a : App} (h : a.HeapOK) (e : Nat) :
    ∀ l ∈ a.listenersOf e, l.addr < a.heapNext := by
  intro l hl
  unfold App.listenersOf at hl
  cases hg : a.applicationEventListeners.get? e with
  | none => simp [hg] at hl
  | some ls =>
    simp only [hg, Option.getD_some] at hl
    exact h (e, ls) (GoMap.get?_mem _ _ _ hg) l hl

theorem App.HeapOK_On (a : App) (e cb : Nat) (h : a.HeapOK) : (a.On e cb).1.HeapOK := by
  have key : ∀ kv ∈ a.applicationEventListeners.set e (a.listenersOf e ++ [a.newListener cb]),
      ∀ l ∈ kv.2, l.addr < a.heapNext + 1 := by
    intro kv hkv l hl
    rcases GoMap.mem_set _ _ _ _ hkv with hm | hm
    · exact Nat.lt_succ_of_lt (h kv hm l hl)
    · subst hm
      rcases List.mem_append.mp hl with h1 | h1
      · exact Nat.lt_succ_of_lt (h.listenersOf e l h1)
      · simp only [List.mem_singleton] at h1
        subst h1
        simp [App.newListener]
  unfold App.On
  by_cases hi : a.impl.isSome <;> simpa [App.HeapOK, hi, App.emit, App.listenersOf] using key

theorem App.HeapOK_cancelListener (a : App) (e : Nat) (l : EventListener) (h : a.HeapOK) :
    (App.cancelListener e l a).HeapOK := by
  intro kv hkv x hx
  rcases GoMap.mem_set _ _ _ _ hkv with hm | hm
  · exact h kv hm x hx
  · subst hm
    exact h.listenersOf e x (List.mem_of_mem_filter hx)

theorem App.Without_fresh (ls : List EventListener) (l : EventListener)
    (h : ∀ x ∈ ls, x.addr < l.addr) : App.Without ls l = ls := by
  unfold App.Without
  rw [List.filter_eq_self]
  intro x hx
  have := h x hx
  simp only [ne_eq, decide_not, Bool.not_eq_eq_eq_not, Bool.not_true, decide_eq_false_iff_not]
  omega

theorem App.listenersOf_cancelListener_self (b : App) (e : Nat) (l : EventListener) :
    (App.cancelListener e l b).listenersOf e = App.Without (b.listenersOf e) l := by
  simp [App.cancelListener, App.listenersOf, GoMap.get?_set_self]

theorem App.listenersOf_cancelListener_ne (b : App) (e j : Nat) (l : EventListener)
    (h : j ≠ e) : (App.cancelListener e l b).listenersOf j = b.listenersOf j := by
  simp [App.cancelListener, App.listenersOf, GoMap.get?_set_ne _ _ _ _ h]

theorem App.Without_Without (ls : List EventListener) (l : EventListener) :
    App.Without (App.Without ls l) l = App.Without ls l := by
  simp [App.Without, List.filter_filter]

theorem App.cancelListener_idem (b : App) (e : Nat) (l : EventListener) :
    App.cancelListener e l (App.cancelListener e l b) = App.cancelListener e l b := by
  have h := App.listenersOf_cancelListener_self b e l
  unfold App.cancelListener at h ⊢
  simp only [h, GoMap.set_set, App.Without_Without]

theorem App.On_snd (a : App) (e cb : Nat) :
    (a.On e cb).2 = App.cancelListener e (a.newListener cb) := by
  unfold App.On
  rfl

/-- C6: in a state whose listeners all live at addresses already allocated,
the cancel function of `On(e, cb)` called right after it gives back the list
that `e` had before, and after a second `On(e, cb)` keeps the second
listener; called in any state `b` it removes from the list of `e` the
listeners at the address of the first one and keeps the others in order,
leaves the lists of other event types alone, is not launched by a later
event, and a second call changes nothing. -/
theorem On_cancel_removes_its_listener (a b : App) (e cb : Nat) (h : a.HeapOK) :
    let l := a.newListener cb
    let a1 := (a.On e cb).1
    let cancel := (a.On e cb).2
    a1.listenersOf e = a.listenersOf e ++ [l] ∧
    (cancel a1).listenersOf e = a.listenersOf e ∧
    (let a2 := (a1.On e cb).1
     a2.listenersOf e = a.listenersOf e ++ [l, a1.newListener cb] ∧
     (cancel a2).listenersOf e = a.listenersOf e ++ [a1.newListener cb] ∧
     (a1.newListener cb).callback = cb) ∧
    (cancel b).listenersOf e
      = (b.listenersOf e).filter (fun x => decide (x.addr ≠ l.addr)) ∧
    l ∉ (cancel b).listenersOf e ∧
    (∀ j, j ≠ e → (cancel b).listenersOf j = b.listenersOf j) ∧
    launchedCallbacks ((cancel b).handleApplicationEvent e).trace
      = launchedCallbacks b.trace
        ++ ((b.listenersOf e).filter (fun x => decide (x.addr ≠ l.addr))).map
            EventListener.callback ∧
    cancel (cancel b) = cancel b := by
  intro l a1 cancel
  have hc : cancel = App.cancelListener e l := App.On_snd a e cb
  have h1 : a1.listenersOf e = a.listenersOf e ++ [l] := App.listenersOf_On_self a e cb
  have hold : ∀ x ∈ a.listenersOf e, x.addr < l.addr := h.listenersOf e
  have hnext : a1.heapNext = a.heapNext + 1 := App.heapNext_On a e cb
  refine ⟨h1, ?_, ?_, ?_, ?_, ?_, ?_, ?_⟩
  · rw [hc, App.listenersOf_cancelListener_self, h1]
    have hw := App.Without_fresh _ _ hold
    simp only [App.Without, List.filter_append] at hw ⊢
    rw [hw]
    simp
  · intro a2
    have h2 : a2.listenersOf e = a.listenersOf e ++ [l, a1.newListener cb] := by
      simp only [a2, App.listenersOf_On_self, h1, List.append_assoc, List.singleton_append]
    refine ⟨h2, ?_, rfl⟩
    rw [hc, App.listenersOf_cancelListener_self, h2]
    have hw := App.Without_fresh _ _ hold
    simp only [App.Without, List.filter_append] at hw ⊢
    rw [hw]
    simp [App.newListener, hnext, l]
  · rw [hc, App.listenersOf_cancelListener_self]
    rfl
  · rw [hc, App.listenersOf_cancelListener_self]
    simp [App.Without]
  · intro j hj
    rw [hc, App.listenersOf_cancelListener_ne _ _ _ _ hj]
  · rw [App.handleApplicationEvent_eq, hc, App.listenersOf_cancelListener_self]
    simp only [launchedCallbacks_append, launchedCallbacks_goCallback]
    rfl
  · rw [hc, App.cancelListener_idem]

/-- C6 at the application built by `New`: registering a listener for event
type 3 and cancelling it gives back the empty list. -/
theorem On_cancel_removes_its_listener_witness :
    (New ⟨false⟩).HeapOK ∧
    (((New ⟨false⟩).On 3 9).2 ((New ⟨false⟩).On 3 9).1).listenersOf 3
      = (New ⟨false⟩).listenersOf 3 :=
  ⟨App.HeapOK_New _,
    (On_cancel_removes_its_listener (New ⟨false⟩) (New ⟨false⟩) 3 9 (App.HeapOK_New _)).2.1⟩

end Listeners

section Identifiers

theorem App.getSystemTrayIDs_no_wrap (n : Nat) :
    ∀ a : App, a.systemTrayID + n < uintSize →
      (a.getSystemTrayIDs n).1 = List.range' (a.systemTrayID + 1) n ∧
      (a.getSystemTrayIDs n).2.systemTrayID = a.systemTrayID + n := by
  induction n with
  | zero => intro a _; simp [App.getSystemTrayIDs]
  | succ n ih =>
    intro a h
    have hm : (a.systemTrayID + 1) % uintSize = a.systemTrayID + 1 :=
      Nat.mod_eq_of_lt (by omega)
    have hs : a.getSystemTrayID.2.systemTrayID = a.systemTrayID + 1 := by
      simp [App.getSystemTrayID, hm]
    have h1 := ih a.getSystemTrayID.2 (by rw [hs]; omega)
    rw [hs] at h1
    refine ⟨?_, ?_⟩
    · simp only [App.getSystemTrayIDs, h1.1, List.range'_succ]
      simp [App.getSystemTrayID, hm]
    · simp only [App.getSystemTrayIDs, h1.2]
      omega

/-- C7, as amended: as long as the counter does not reach `2 ^ 64`, the
identifiers of `n` successive `getSystemTrayID` calls are the counter plus
1, 2, ..., `n`: each is the previous counter plus one, they are strictly
increasing and pairwise distinct, and the counter ends at the last one. -/
theorem getSystemTrayID_strictly_increasing (a : App) (n : Nat)
    (h : a.systemTrayID + n < uintSize) :
    (a.getSystemTrayIDs n).1 = List.range' (a.systemTrayID + 1) n ∧
    (a.getSystemTrayIDs n).2.systemTrayID = a.systemTrayID + n ∧
    (a.getSystemTrayIDs n).1.Pairwise (fun x y => x < y) ∧
    (a.getSystemTrayIDs n).1.Nodup ∧
    (∀ id ∈ (a.getSystemTrayIDs n).1, a.systemTrayID < id) := by
  have h1 := App.getSystemTrayIDs_no_wrap n a h
  refine ⟨h1.1, h1.2, ?_, ?_, ?_⟩
  · rw [h1.1]; exact List.pairwise_lt_range' _ _
  · rw [h1.1]; exact List.nodup_range' _ _
  · rw [h1.1]
    intro id hid
    have := (List.mem_range'_1.mp hid).1
    omega

/-- Three identifiers from the application built by `New`. -/
theorem getSystemTrayID_strictly_increasing_witness :
    (New ⟨false⟩).systemTrayID + 3 < uintSize ∧
    ((New ⟨false⟩).getSystemTrayIDs 3).1 = [1, 2, 3] := by
  have hb : (New ⟨false⟩).systemTrayID + 3 < uintSize := by decide
  exact ⟨hb, (getSystemTrayID_strictly_increasing (New ⟨false⟩) 3 hb).1⟩

/-- C7 fails where the counter wraps: with the counter at `2 ^ 64 - 2` the
next two identifiers are `2 ^ 64 - 1` and `0`, not increasing, and the
second is not the previous counter plus one. -/
theorem getSystemTrayID_wraps :
    let a : App := { New ⟨false⟩ with systemTrayID := 2 ^ 64 - 2 }
    (a.getSystemTrayIDs 2).1 = [2 ^ 64 - 1, 0] ∧
    ¬ (a.getSystemTrayIDs 2).1.Pairwise (fun x y => x < y) ∧
    a.getSystemTrayID.2.getSystemTrayID.1 ≠ a.getSystemTrayID.2.systemTrayID + 1 := by
  decide

end Identifiers

section DispatcherTheorems

variable {T : Type}

theorem dispatchedIds_append (s t : List Effect) :
    dispatchedIds (s ++ t) = dispatchedIds s ++ dispatchedIds t := by
  induction s with
  | nil => simp [dispatchedIds]
  | cons e s ih => cases e <;> simp [dispatchedIds, ih]

theorem panicHandlerCalls_append (s t : List Effect) :
    panicHandlerCalls (s ++ t) = panicHandlerCalls s ++ panicHandlerCalls t := by
  induction s with
  | nil => simp [panicHandlerCalls]
  | cons e s ih => cases e <;> simp [panicHandlerCalls, ih]

theorem Untouched.refl (w : World T) : Untouched w w := ⟨rfl, rfl, rfl, rfl⟩

theorem Untouched.trans {w w1 w2 : World T} (h1 : Untouched w w1) (h2 : Untouched w1 w2) :
    Untouched w w2 :=
  ⟨h2.1.trans h1.1, h2.2.1.trans h1.2.1, h2.2.2.1.trans h1.2.2.1, h2.2.2.2.trans h1.2.2.2⟩

theorem processPanic_untouched (v : Value) (w : World T) :
    Untouched w (processPanic v w).2 := by
  by_cases hp : w.globalApplication.options.PanicHandler = true <;>
    simp [processPanic, hp, Untouched, World.emit, World.trace, App.emit,
      dispatchedIds_append, dispatchedIds]

theorem recoverPanic_untouched (v : Value) (w : World T) :
    Untouched w (recoverPanic v w).2 := by
  unfold recoverPanic
  split
  · exact processPanic_untouched v w
  · exact Untouched.refl w

theorem doneUnderRecover_untouched (w : World T) :
    Untouched w (doneUnderRecover w).2 := by
  by_cases h : w.wg = 0
  · have e : doneUnderRecover w
        = recoverPanic (.str "sync: negative WaitGroup counter") w := by
      simp [doneUnderRecover, wgDone, h]
    rw [e]
    exact recoverPanic_untouched _ w
  · have e : doneUnderRecover w = (.returned, { w with wg := w.wg - 1 }) := by
      simp [doneUnderRecover, wgDone, h]
    rw [e]
    exact ⟨rfl, rfl, rfl, rfl⟩

theorem emit_call_untouched (w : World T) (n : Nat) : Untouched w (w.emit (.call n)) := by
  simp [Untouched, World.emit, World.trace, App.emit, dispatchedIds_append, dispatchedIds]

theorem Closure.run_untouched (c : Closure T) (w : World T) : Untouched w (c.run w).2 := by
  cases c with
  | plain fn =>
    rcases fn with ⟨id, _ | v⟩ <;> simp only [Closure.run] <;>
      exact emit_call_untouched w id
  | invokeSync fn =>
    rcases fn with ⟨id, _ | v⟩ <;> simp only [Closure.run]
    · exact (emit_call_untouched w id).trans (doneUnderRecover_untouched _)
    · exact (emit_call_untouched w id).trans (recoverPanic_untouched _ _)
  | invokeSyncWithResult fn =>
    rcases fn with ⟨id, r | v⟩ <;> simp only [Closure.run]
    · exact (emit_call_untouched w id).trans
        (Untouched.trans ⟨rfl, rfl, rfl, rfl⟩ (doneUnderRecover_untouched _))
    · exact (emit_call_untouched w id).trans (recoverPanic_untouched _ _)
  | invokeSyncWithError fn =>
    rcases fn with ⟨id, e | v⟩ <;> simp only [Closure.run]
    · exact (emit_call_untouched w id).trans
        (Untouched.trans ⟨rfl, rfl, rfl, rfl⟩ (doneUnderRecover_untouched _))
    · exact (emit_call_untouched w id).trans (recoverPanic_untouched _ _)
  | invokeSyncWithResultAndError fn =>
    rcases fn with ⟨id, ⟨r, e⟩ | v⟩ <;> simp only [Closure.run]
    · exact (emit_call_untouched w id).trans
        (Untouched.trans ⟨rfl, rfl, rfl, rfl⟩ (doneUnderRecover_untouched _))
    · exact (emit_call_untouched w id).trans (recoverPanic_untouched _ _)

theorem callsOf_append (n : Nat) (s t : List Effect) :
    callsOf n (s ++ t) = callsOf n s + callsOf n t := by
  simp [callsOf]

/-- C8: with the adapter present and a generator that returns an id not in
the store, `dispatchOnMainThread(fn)` on the main thread is one call of `fn`
and touches neither the store nor the adapter; off the main thread it calls
nothing, binds the generated id to `fn` in the store, keeps every other
binding, and hands that id to the adapter once. -/
theorem dispatchOnMainThread_one_of_two (gen : GoMap Nat (Closure T) → Nat)
    (fn : Closure T) (f : Fn Unit) (w : World T) (p : platformApp)
    (himpl : w.globalApplication.impl = some p)
    (hfresh : w.mainThreadFunctionStore.get? (gen w.mainThreadFunctionStore) = none) :
    (p.isOnMainThread = true →
      dispatchOnMainThread gen fn w = fn.run w ∧
      Untouched w (dispatchOnMainThread gen fn w).2 ∧
      (dispatchOnMainThread gen (.plain f) w).2.trace = w.trace ++ [.call f.id]) ∧
    (p.isOnMainThread = false →
      (dispatchOnMainThread gen fn w).1 = .returned ∧
      (dispatchOnMainThread gen fn w).2.trace
        = w.trace ++ [.implDispatchOnMainThread (gen w.mainThreadFunctionStore)] ∧
      (∀ n, callsOf n (dispatchOnMainThread gen fn w).2.trace = callsOf n w.trace) ∧
      (dispatchOnMainThread gen fn w).2.mainThreadFunctionStore
        = w.mainThreadFunctionStore.set (gen w.mainThreadFunctionStore) fn ∧
      (∀ k, k ≠ gen w.mainThreadFunctionStore →
        (dispatchOnMainThread gen fn w).2.mainThreadFunctionStore.get? k
          = w.mainThreadFunctionStore.get? k) ∧
      (∀ k, (w.mainThreadFunctionStore.get? k).isSome →
        (dispatchOnMainThread gen fn w).2.mainThreadFunctionStore.get? k
          = w.mainThreadFunctionStore.get? k) ∧
      (dispatchOnMainThread gen fn w).2.adapterQueue
        = w.adapterQueue ++ [gen w.mainThreadFunctionStore]) := by
  refine ⟨?_, ?_⟩
  · intro hm
    have e : ∀ c : Closure T, dispatchOnMainThread gen c w = c.run w := by
      intro c
      simp [dispatchOnMainThread, himpl, hm]
    refine ⟨e fn, ?_, ?_⟩
    · rw [e fn]
      exact Closure.run_untouched fn w
    · rw [e]
      rcases f with ⟨id, _ | v⟩ <;> simp [Closure.run, World.emit, World.trace, App.emit]
  · intro hm
    have e : dispatchOnMainThread gen fn w
        = (.returned,
            { w with
              globalApplication := w.globalApplication.emit
                (.implDispatchOnMainThread (gen w.mainThreadFunctionStore))
              mainThreadFunctionStore :=
                w.mainThreadFunctionStore.set (gen w.mainThreadFunctionStore) fn
              adapterQueue := w.adapterQueue ++ [gen w.mainThreadFunctionStore] }) := by
      simp [dispatchOnMainThread, himpl, hm, World.emit]
    rw [e]
    refine ⟨rfl, rfl, ?_, rfl, ?_, ?_, rfl⟩
    · intro n
      simp [World.trace, App.emit, callsOf]
    · intro k hk
      exact GoMap.get?_set_ne _ _ _ _ hk
    · intro k hk
      apply GoMap.get?_set_ne
      intro hkeq
      rw [hkeq, hfresh] at hk
      simp at hk

/-- C8 off the main thread, on an empty store: the closure is bound to the
generated id 1, which is handed to the adapter. -/
theorem dispatchOnMainThread_one_of_two_witness :
    (exampleWorld false true).globalApplication.impl = some ⟨false⟩ ∧
    (exampleWorld false true).mainThreadFunctionStore.get?
      (maxPlusOne (exampleWorld false true).mainThreadFunctionStore) = none ∧
    (dispatchOnMainThread maxPlusOne (.plain ⟨5, .returned ()⟩)
      (exampleWorld false true)).2.adapterQueue = [1] :=
  ⟨rfl, rfl,
    ((dispatchOnMainThread_one_of_two maxPlusOne (.plain ⟨5, .returned ()⟩)
      ⟨5, .returned ()⟩ (exampleWorld false true) ⟨false⟩ rfl rfl).2 rfl).2.2.2.2.2.2⟩

/-- C2: with the adapter present and no other dispatch pending, for `fn`
that returns `(r, e)`, `invokeSyncWithResultAndError(fn)` completes with
exactly `(r, e)` and calls `fn` exactly once, on the main thread (the call
is all it does) and off it (the id is handed to the adapter, which then runs
the stored closure). -/
theorem invokeSyncWithResultAndError_returns_fn [Inhabited T]
    (gen : GoMap Nat (Closure T) → Nat) (fn : Fn (T × GoError)) (w : World T)
    (p : platformApp) (r : T) (e : GoError)
    (himpl : w.globalApplication.impl = some p)
    (hq : w.adapterQueue = [])
    (hfn : fn.outcome = .returned (r, e)) :
    (invokeSyncWithResultAndError gen fn w).1 = .done (r, e) ∧
    callsOf fn.id (invokeSyncWithResultAndError gen fn w).2.trace
      = callsOf fn.id w.trace + 1 ∧
    (p.isOnMainThread = true →
      (invokeSyncWithResultAndError gen fn w).2.trace = w.trace ++ [.call fn.id]) ∧
    (p.isOnMainThread = false →
      (invokeSyncWithResultAndError gen fn w).2.trace
        = w.trace ++ [.implDispatchOnMainThread (gen w.mainThreadFunctionStore),
                      .call fn.id]) ∧
    (invokeSyncWithResultAndError gen fn w).2.wg = 0 := by
  obtain ⟨id, out⟩ := fn
  simp only at hfn
  subst hfn
  cases hm : p.isOnMainThread
  · have key : (invokeSyncWithResultAndError gen ⟨id, .returned (r, e)⟩ w).1 = .done (r, e) ∧
        (invokeSyncWithResultAndError gen ⟨id, .returned (r, e)⟩ w).2.trace
          = w.trace ++ [.implDispatchOnMainThread (gen w.mainThreadFunctionStore),
                        .call id] ∧
        (invokeSyncWithResultAndError gen ⟨id, .returned (r, e)⟩ w).2.wg = 0 := by
      simp [invokeSyncWithResultAndError, dispatchOnMainThread, himpl, hm, hq,
        waitAndReturn, adapterPump, adapterInvoke, GoMap.get?_set_self, Closure.run,
        doneUnderRecover, wgDone, World.emit, World.trace, App.emit]
    refine ⟨key.1, ?_, ?_, ?_, key.2.2⟩
    · rw [key.2.1]
      simp [callsOf]
    · intro h; cases h
    · intro _; exact key.2.1
  · have key : (invokeSyncWithResultAndError gen ⟨id, .returned (r, e)⟩ w).1 = .done (r, e) ∧
        (invokeSyncWithResultAndError gen ⟨id, .returned (r, e)⟩ w).2.trace
          = w.trace ++ [.call id] ∧
        (invokeSyncWithResultAndError gen ⟨id, .returned (r, e)⟩ w).2.wg = 0 := by
      simp [invokeSyncWithResultAndError, dispatchOnMainThread, himpl, hm,
        waitAndReturn, Closure.run,
        doneUnderRecover, wgDone, World.emit, World.trace, App.emit]
    refine ⟨key.1, ?_, ?_, ?_, key.2.2⟩
    · rw [key.2.1]
      simp [callsOf]
    · intro _; exact key.2.1
    · intro h; cases h

/-- C2 off the main thread: a function that returns `(42, nil)`. -/
theorem invokeSyncWithResultAndError_returns_fn_witness :
    (exampleWorld false false).globalApplication.impl = some ⟨false⟩ ∧
    (exampleWorld false false).adapterQueue = [] ∧
    (invokeSyncWithResultAndError maxPlusOne ⟨5, .returned (42, none)⟩
      (exampleWorld false false)).1 = .done (42, none) :=
  ⟨rfl, rfl,
    (invokeSyncWithResultAndError_returns_fn maxPlusOne ⟨5, .returned (42, none)⟩
      (exampleWorld false false) ⟨false⟩ 42 none rfl rfl rfl).1⟩

/-- With a custom panic handler, a closure of the `invokeSync` family whose
function panics with a non-nil value hands it to the handler and returns
without `wg.Done()`: the counter keeps its value. -/
theorem Closure.run_panicked (w : World T) (id : Nat) (v : Value)
    (hh : w.globalApplication.options.PanicHandler = true) (hv : v ≠ Value.nil) :
    let w1 : World T :=
      { w with globalApplication :=
          (w.globalApplication.emit (.call id)).emit (.panicHandler v) }
    (Closure.invokeSync ⟨id, .panicked v⟩).run w = (.returned, w1) ∧
    (Closure.invokeSyncWithResult ⟨id, .panicked v⟩).run w = (.returned, w1) ∧
    (Closure.invokeSyncWithError ⟨id, .panicked v⟩).run w = (.returned, w1) ∧
    (Closure.invokeSyncWithResultAndError ⟨id, .panicked v⟩).run w = (.returned, w1) := by
  simp [Closure.run, recoverPanic, processPanic, hv, hh, World.emit, App.emit]

/-- For every function that panics with a non-nil value, with a custom
panic handler: `invokeSyncWithResultAndError` hands the value to the handler
once and then the wait never completes, on the main thread and off it. -/
theorem invokeSyncWithResultAndError_panic_blocks [Inhabited T]
    (gen : GoMap Nat (Closure T) → Nat) (id : Nat) (v : Value) (w : World T)
    (p : platformApp)
    (himpl : w.globalApplication.impl = some p)
    (hq : w.adapterQueue = [])
    (hh : w.globalApplication.options.PanicHandler = true) (hv : v ≠ Value.nil) :
    (invokeSyncWithResultAndError gen ⟨id, .panicked v⟩ w).1 = .blocked ∧
    panicHandlerCalls (invokeSyncWithResultAndError gen ⟨id, .panicked v⟩ w).2.trace
      = panicHandlerCalls w.trace ++ [v] ∧
    (invokeSyncWithResultAndError gen ⟨id, .panicked v⟩ w).2.wg = 1 := by
  cases hm : p.isOnMainThread
  · simp [invokeSyncWithResultAndError, dispatchOnMainThread, himpl, hm, hq,
      waitAndReturn, adapterPump, adapterInvoke, GoMap.get?_set_self, Closure.run,
      recoverPanic, processPanic, hv, hh, World.emit, World.trace, App.emit,
      panicHandlerCalls_append, panicHandlerCalls]
  · simp [invokeSyncWithResultAndError, dispatchOnMainThread, himpl, hm,
      waitAndReturn, Closure.run,
      recoverPanic, processPanic, hv, hh, World.emit, World.trace, App.emit,
      panicHandlerCalls_append, panicHandlerCalls]

/-- C3 on the code: a function that panics with `"boom"`, a custom panic
handler configured. In each of the four `invokeSync` functions, on the main
thread and off it, the panic is recovered and handed to the handler once,
but `wg.Done()` is skipped: the counter stays at 1 and the caller's wait
does not complete. -/
theorem invokeSync_panic_leaves_caller_blocked :
    (∀ onMain : Bool,
      (invokeSync maxPlusOne ⟨5, .panicked (.str "boom")⟩ (exampleWorld onMain true)).1
        = .blocked ∧
      (invokeSyncWithResult maxPlusOne ⟨5, .panicked (.str "boom")⟩
        (exampleWorld onMain true)).1 = .blocked ∧
      (invokeSyncWithError maxPlusOne ⟨5, .panicked (.str "boom")⟩
        (exampleWorld onMain true)).1 = .blocked ∧
      (invokeSyncWithResultAndError maxPlusOne ⟨5, .panicked (.str "boom")⟩
        (exampleWorld onMain true)).1 = .blocked ∧
      (invokeSyncWithResultAndError maxPlusOne ⟨5, .panicked (.str "boom")⟩
        (exampleWorld onMain true)).2.wg = 1) ∧
    (invokeSyncWithResultAndError maxPlusOne ⟨5, .panicked (.str "boom")⟩
        (exampleWorld true true)).2.trace
      = [.call 5, .panicHandler (.str "boom")] ∧
    (invokeSyncWithResultAndError maxPlusOne ⟨5, .panicked (.str "boom")⟩
        (exampleWorld false true)).2.trace
      = [.implDispatchOnMainThread 1, .call 5, .panicHandler (.str "boom")] := by
  refine ⟨?_, rfl, rfl⟩
  intro onMain
  cases onMain <;> exact ⟨rfl, rfl, rfl, rfl, rfl⟩

end DispatcherTheorems

section AssetRequests

theorem canonical_window_id :
    CanonicalMIMEHeaderKey webViewRequestHeaderWindowId = "X-Wails-Window-Id" := by
  decide

theorem canonical_window_name :
    CanonicalMIMEHeaderKey webViewRequestHeaderWindowName = "X-Wails-Window-Name" := by
  decide

theorem Heap.read_lt {hp : Heap} {a : Nat} {h : Header} (hread : hp.read a = some h) :
    a < hp.headers.length := by
  unfold Heap.read at hread
  by_contra hlt
  rw [List.getElem?_eq_none (Nat.le_of_not_lt hlt)] at hread
  cases hread

/-- For an allocated map `Header` returns normally with one map allocated
after the existing ones: the copy of `h` with the window-id key set. -/
theorem assetRequest_Header_eq (r : webViewAssetRequest) (hp : Heap) (a : Nat)
    (h : Header) (hreq : r.Request_Header = .ok (some a)) (hread : hp.read a = some h) :
    r.Header hp
      = (.returned (.ok (some hp.headers.length)),
          { headers := hp.headers ++
              [h.Set webViewRequestHeaderWindowId (FormatUint r.windowId 10)] }) := by
  have hr : hp.headers[a]? = some h := hread
  unfold webViewAssetRequest.Header
  simp [hreq, Heap.clone, Heap.deref, Heap.alloc, Heap.set, Heap.read, hr]

/-- For the nil map `Clone` gives nil and `Set` panics: `Header` returns no
header value, and the heap is as it was. -/
theorem assetRequest_Header_nil (r : webViewAssetRequest) (hp : Heap) (ref : HeaderRef)
    (hreq : r.Request_Header = .ok ref) (hnil : hp.deref ref = none) :
    r.Header hp = (.panicked (.error "assignment to entry in nil map"), hp) := by
  unfold webViewAssetRequest.Header
  simp [hreq, Heap.clone, hnil, Heap.set]

theorem assetRequest_Header_error (r : webViewAssetRequest) (hp : Heap) (err : String)
    (hreq : r.Request_Header = .error err) :
    r.Header hp = (.returned (.error err), hp) := by
  unfold webViewAssetRequest.Header
  simp [hreq]

theorem Header.Values_Set_self (h : Header) (key value : String) :
    (h.Set key value).Values key = [value] := by
  simp [Header.Values, Header.Set, GoMap.get?_set_self]

theorem Header.Values_Set_ne (h : Header) (key value k : String)
    (hk : CanonicalMIMEHeaderKey k ≠ CanonicalMIMEHeaderKey key) :
    (h.Set key value).Values k = h.Values k := by
  simp [Header.Values, Header.Set, GoMap.get?_set_ne _ _ _ _ hk]

/-- C9, as amended, over every result of the wrapped request's `Header()`.
When it returns a map `h` that is not nil (allocated at `a`), `Header()`
returns a new map, at another address, that holds under `x-wails-window-id`
the single value `FormatUint(windowId, 10)` and agrees with `h` on every
other key; the map at `a` and every other map allocated before are as they
were. When it returns the nil map with a nil error, `Header()` panics in
`Set` and returns no header set. When it returns an error, `Header()`
returns that error. -/
theorem Header_sets_window_id (r : webViewAssetRequest) (hp : Heap) :
    (∀ a h, r.Request_Header = .ok (some a) → hp.read a = some h →
      (r.Header hp).1 = .returned (.ok (some hp.headers.length)) ∧
      (r.Header hp).2.read hp.headers.length
        = some (h.Set webViewRequestHeaderWindowId (FormatUint r.windowId 10)) ∧
      (h.Set webViewRequestHeaderWindowId (FormatUint r.windowId 10)).Values
        "x-wails-window-id" = [FormatUint r.windowId 10] ∧
      (h.Set webViewRequestHeaderWindowId (FormatUint r.windowId 10)).Get
        "x-wails-window-id" = FormatUint r.windowId 10 ∧
      GoMap.get? (h.Set webViewRequestHeaderWindowId (FormatUint r.windowId 10))
        "X-Wails-Window-Id" = some [FormatUint r.windowId 10] ∧
      (∀ k, k ≠ "X-Wails-Window-Id" →
        GoMap.get? (h.Set webViewRequestHeaderWindowId (FormatUint r.windowId 10)) k
          = GoMap.get? h k) ∧
      (∀ k, CanonicalMIMEHeaderKey k ≠ "X-Wails-Window-Id" →
        (h.Set webViewRequestHeaderWindowId (FormatUint r.windowId 10)).Values k
          = h.Values k) ∧
      a ≠ hp.headers.length ∧
      (r.Header hp).2.read a = some h ∧
      (∀ b, b < hp.headers.length → (r.Header hp).2.read b = hp.read b)) ∧
    (∀ ref, r.Request_Header = .ok ref → hp.deref ref = none →
      r.Header hp = (.panicked (.error "assignment to entry in nil map"), hp)) ∧
    (∀ err, r.Request_Header = .error err →
      r.Header hp = (.returned (.error err), hp)) := by
  refine ⟨?_, assetRequest_Header_nil r hp, assetRequest_Header_error r hp⟩
  intro a h hreq hread
  have hlt := Heap.read_lt hread
  have hold : ∀ b, b < hp.headers.length → (r.Header hp).2.read b = hp.read b := by
    intro b hb
    rw [assetRequest_Header_eq r hp a h hreq hread]
    simp [Heap.read, List.getElem?_append_left hb]
  have hv : (h.Set webViewRequestHeaderWindowId (FormatUint r.windowId 10)).Values
      "x-wails-window-id" = [FormatUint r.windowId 10] :=
    Header.Values_Set_self h _ _
  refine ⟨?_, ?_, hv, ?_, ?_, ?_, ?_, Nat.ne_of_lt hlt, ?_, hold⟩
  · rw [assetRequest_Header_eq r hp a h hreq hread]
  · rw [assetRequest_Header_eq r hp a h hreq hread]
    simp [Heap.read]
  · simp [Header.Get, hv]
  · simp only [Header.Set, canonical_window_id]
    exact GoMap.get?_set_self _ _ _
  · intro k hk
    simp only [Header.Set, canonical_window_id]
    exact GoMap.get?_set_ne _ _ _ _ hk
  · intro k hk
    apply Header.Values_Set_ne
    rw [canonical_window_id]
    exact hk
  · rw [hold a hlt, hread]

/-- C9, as amended, for window 12 and a wrapped request whose header map
holds an `Accept` entry. -/
theorem Header_sets_window_id_witness :
    (⟨.ok (some 0), 12, "main"⟩ : webViewAssetRequest).Request_Header = .ok (some 0) ∧
    (⟨[[("Accept", ["text/html"])]]⟩ : Heap).read 0 = some [("Accept", ["text/html"])] ∧
    ((⟨.ok (some 0), 12, "main"⟩ : webViewAssetRequest).Header
        ⟨[[("Accept", ["text/html"])]]⟩).2.read 1
      = some [("Accept", ["text/html"]), ("X-Wails-Window-Id", ["12"])] :=
  ⟨rfl, rfl,
    ((Header_sets_window_id ⟨.ok (some 0), 12, "main"⟩ ⟨[[("Accept", ["text/html"])]]⟩).1
      0 [("Accept", ["text/html"])] rfl rfl).2.1.trans (by decide)⟩

/-- C9 fails where the wrapped request's `Header()` succeeds with the nil
map: `Clone` of nil is nil, `Set` on it panics with `assignment to entry in
nil map`, and `Header()` returns no header set; nothing is allocated. -/
theorem Header_nil_map_panics :
    (⟨.ok none, 12, "main"⟩ : webViewAssetRequest).Header ⟨[]⟩
      = (.panicked (.error "assignment to entry in nil map"), ⟨[]⟩) ∧
    (∀ hh, ((⟨.ok none, 12, "main"⟩ : webViewAssetRequest).Header ⟨[]⟩).1
      ≠ .returned (.ok hh)) := by
  refine ⟨rfl, ?_⟩
  intro hh h
  have e : ((⟨.ok none, 12, "main"⟩ : webViewAssetRequest).Header ⟨[]⟩).1
      = .panicked (.error "assignment to entry in nil map") := rfl
  rw [e] at h
  cases h

/-- C10, as amended, over every result of the wrapped request's `Header()`.
When it returns a map `h` that is not nil, `Header()` adds only the window
id: under `x-wails-window-name` the returned map holds exactly the values
that `h` holds there, none when `h` has none; the name of the window is not
written. When it returns the nil map with a nil error, `Header()` panics in
`Set` and returns no header set. When it returns an error, `Header()`
returns that error. -/
theorem Header_leaves_window_name (r : webViewAssetRequest) (hp : Heap) :
    (∀ a h, r.Request_Header = .ok (some a) → hp.read a = some h →
      (r.Header hp).1 = .returned (.ok (some hp.headers.length)) ∧
      (r.Header hp).2.read hp.headers.length
        = some (h.Set webViewRequestHeaderWindowId (FormatUint r.windowId 10)) ∧
      (h.Set webViewRequestHeaderWindowId (FormatUint r.windowId 10)).Values
        "x-wails-window-id" = [FormatUint r.windowId 10] ∧
      (h.Set webViewRequestHeaderWindowId (FormatUint r.windowId 10)).Values
        "x-wails-window-name" = h.Values "x-wails-window-name" ∧
      GoMap.get? (h.Set webViewRequestHeaderWindowId (FormatUint r.windowId 10))
        "x-wails-window-name" = GoMap.get? h "x-wails-window-name" ∧
      GoMap.get? (h.Set webViewRequestHeaderWindowId (FormatUint r.windowId 10))
        "X-Wails-Window-Name" = GoMap.get? h "X-Wails-Window-Name" ∧
      (h.Values "x-wails-window-name" = [] →
        (h.Set webViewRequestHeaderWindowId (FormatUint r.windowId 10)).Values
          "x-wails-window-name" = [])) ∧
    (∀ ref, r.Request_Header = .ok ref → hp.deref ref = none →
      r.Header hp = (.panicked (.error "assignment to entry in nil map"), hp)) ∧
    (∀ err, r.Request_Header = .error err →
      r.Header hp = (.returned (.error err), hp)) := by
  refine ⟨?_, assetRequest_Header_nil r hp, assetRequest_Header_error r hp⟩
  intro a h hreq hread
  have hv : (h.Set webViewRequestHeaderWindowId (FormatUint r.windowId 10)).Values
      "x-wails-window-name" = h.Values "x-wails-window-name" := by
    apply Header.Values_Set_ne
    decide
  refine ⟨?_, ?_, Header.Values_Set_self h _ _, hv, ?_, ?_, ?_⟩
  · rw [assetRequest_Header_eq r hp a h hreq hread]
  · rw [assetRequest_Header_eq r hp a h hreq hread]
    simp [Heap.read]
  · simp only [Header.Set, canonical_window_id]
    exact GoMap.get?_set_ne _ _ _ _ (by decide)
  · simp only [Header.Set, canonical_window_id]
    exact GoMap.get?_set_ne _ _ _ _ (by decide)
  · intro h0
    rw [hv, h0]

/-- C10, as amended, for the window `"main"` with id 12 and an empty header
map of the wrapped request. -/
theorem Header_leaves_window_name_witness :
    (⟨.ok (some 0), 12, "main"⟩ : webViewAssetRequest).Request_Header = .ok (some 0) ∧
    (⟨[[]]⟩ : Heap).read 0 = some [] ∧
    Header.Values (Header.Set [] webViewRequestHeaderWindowId (FormatUint 12 10))
      "x-wails-window-name" = Header.Values [] "x-wails-window-name" :=
  ⟨rfl, rfl,
    ((Header_leaves_window_name ⟨.ok (some 0), 12, "main"⟩ ⟨[[]]⟩).1 0 [] rfl rfl).2.2.2.1⟩

/-- C10 fails on the code: for the window `"main"` with id 12 and a wrapped
request with an empty header map, the map that `Header()` returns has the
window id and nothing under `x-wails-window-name`, in either spelling of
the key. -/
theorem Header_has_no_window_name :
    let r : webViewAssetRequest := ⟨.ok (some 0), 12, "main"⟩
    let out := r.Header ⟨[[]]⟩
    out.1 = .returned (.ok (some 1)) ∧
    out.2.read 1 = some [("X-Wails-Window-Id", ["12"])] ∧
    (∀ hh, out.2.read 1 = some hh →
      hh.Values "x-wails-window-name" = [] ∧
      hh.Get "x-wails-window-name" ≠ "main" ∧
      GoMap.get? hh "x-wails-window-name" = none ∧
      GoMap.get? hh "X-Wails-Window-Name" = none) := by
  refine ⟨rfl, by decide, ?_⟩
  intro hh hread
  have e : hh = [("X-Wails-Window-Id", ["12"])] := by
    have h2 : (webViewAssetRequest.Header ⟨.ok (some 0), 12, "main"⟩ ⟨[[]]⟩).2.read 1
        = some [("X-Wails-Window-Id", ["12"])] := by decide
    rw [h2] at hread
    exact (Option.some.inj hread).symm
  subst e
  decide

end AssetRequests

section PanicPolicy

variable {T : Type}

theorem exitCodes_append (s t : List Effect) :
    exitCodes (s ++ t) = exitCodes s ++ exitCodes t := by
  induction s with
  | nil => simp [exitCodes]
  | cons e s ih => cases e <;> simp [exitCodes, ih]

/-- C11, as amended: `processPanic` first replaces a nil value by the error
`unknown error`. With a custom panic handler it calls the handler once with
that value, exits nowhere and returns; without one it prints the value,
calls `os.Exit(1)` and does not return, and no handler is called. A value
that is not nil reaches the handler as it is. -/
theorem processPanic_policy (value : Value) (w : World T) :
    (w.globalApplication.options.PanicHandler = true →
      (processPanic value w).1 = .returned ∧
      (processPanic value w).2.trace
        = w.trace ++ [.panicHandler (orUnknownError value)] ∧
      panicHandlerCalls (processPanic value w).2.trace
        = panicHandlerCalls w.trace ++ [orUnknownError value] ∧
      exitCodes (processPanic value w).2.trace = exitCodes w.trace) ∧
    (w.globalApplication.options.PanicHandler = false →
      (processPanic value w).1 = .exited 1 ∧
      (processPanic value w).2.trace
        = w.trace ++ [.printPanic (orUnknownError value), .exit 1] ∧
      panicHandlerCalls (processPanic value w).2.trace = panicHandlerCalls w.trace ∧
      exitCodes (processPanic value w).2.trace = exitCodes w.trace ++ [1]) ∧
    (value ≠ Value.nil → orUnknownError value = value) ∧
    orUnknownError Value.nil = Value.error "unknown error" := by
  refine ⟨?_, ?_, ?_, rfl⟩
  · intro hp
    have e : processPanic value w
        = (.returned, w.emit (.panicHandler (orUnknownError value))) := by
      simp [processPanic, hp, orUnknownError]
    rw [e]
    simp [World.emit, World.trace, App.emit, panicHandlerCalls_append, panicHandlerCalls,
      exitCodes_append, exitCodes]
  · intro hp
    have e : processPanic value w
        = (.exited 1, (w.emit (.printPanic (orUnknownError value))).emit (.exit 1)) := by
      simp [processPanic, hp, orUnknownError]
    rw [e]
    simp [World.emit, World.trace, App.emit, panicHandlerCalls_append, panicHandlerCalls,
      exitCodes_append, exitCodes]
  · intro hv
    simp [orUnknownError, hv]

/-- C11, as amended, on the example world: with a handler the panic value
`"boom"` is handed to it; without one the process exits with code 1. -/
theorem processPanic_policy_witness :
    (processPanic (.str "boom") (exampleWorld true true)).2.trace
      = [.panicHandler (.str "boom")] ∧
    (processPanic (.str "boom") (exampleWorld true false)).1 = .exited 1 :=
  ⟨((processPanic_policy (.str "boom") (exampleWorld true true)).1 rfl).2.1,
    ((processPanic_policy (.str "boom") (exampleWorld true false)).2.1 rfl).1⟩

/-- C11 fails for the nil panic value: the handler is called once, with the
error `unknown error` and not with nil. -/
theorem processPanic_nil_value :
    (processPanic Value.nil (exampleWorld true true)).1 = .returned ∧
    panicHandlerCalls (processPanic Value.nil (exampleWorld true true)).2.trace
      = [Value.error "unknown error"] ∧
    panicHandlerCalls (processPanic Value.nil (exampleWorld true true)).2.trace
      ≠ [Value.nil] := by
  decide

end PanicPolicy

section EntryPointTheorems

variable {T : Type}

theorem shutdownCalls_goRun (rs : List Nat) :
    shutdownCalls (rs.map Effect.goRun) = 0 := by
  induction rs with
  | nil => rfl
  | cons r rs ih =>
    simp only [shutdownCalls] at ih
    simp [shutdownCalls, List.count_cons, ih]

/-- What `Run` does around `a.impl.run()`: when the call returns nil,
`plugins.Shutdown()` is called once, after it and last, and `Run` returns
nil; when the call returns an error, `Run` returns that error with
`a.impl.run()` as its last effect and `plugins.Shutdown()` is not called. -/
theorem Run_shutdown_only_without_error (impl : platformApp) (GOOS e : String)
    (w : World T) :
    (Run impl GOOS (.returned none) w).1 = .returned ∧
    (Run impl GOOS (.returned none) w).2.1 = none ∧
    shutdownCalls (Run impl GOOS (.returned none) w).2.2.trace
      = shutdownCalls w.trace + 1 ∧
    (Run impl GOOS (.returned none) w).2.2.trace
      = (Run impl GOOS (.returned (some e)) w).2.2.trace ++ [.pluginsShutdown] ∧
    (Run impl GOOS (.returned (some e)) w).1 = .returned ∧
    (Run impl GOOS (.returned (some e)) w).2.1 = some e ∧
    shutdownCalls (Run impl GOOS (.returned (some e)) w).2.2.trace
      = shutdownCalls w.trace ∧
    (Run impl GOOS (.returned (some e)) w).2.2.trace
      = w.trace ++
        [.log "INFO" "Starting application",
         .goDispatchLoop "applicationEvents", .goDispatchLoop "windowEvents",
         .goDispatchLoop "webviewRequests", .goDispatchLoop "windowMessageBuffer",
         .goDispatchLoop "windowDragAndDropBuffer", .goDispatchLoop "menuItemClicked"] ++
        w.globalApplication.pendingRun.map Effect.goRun ++
        (if GOOS = "darwin" ∨ GOOS = "linux" then [.implSetApplicationMenu] else []) ++
        [.implSetIcon, .implRun] := by
  have h0 := shutdownCalls_goRun w.globalApplication.pendingRun
  simp only [shutdownCalls] at h0
  by_cases hg : GOOS = "darwin" ∨ GOOS = "linux" <;>
    simp [Run, hg, World.emit, World.trace, App.emit, App.runStart, App.launchPending_eq,
      shutdownCalls, List.count_cons, List.count_append, h0]

/-- C12 on the code: from the application of `New`, on linux, with
`a.impl.run()` returning the error `"run failed"`, `Run` returns that error
and its trace ends with `a.impl.run()`: `plugins.Shutdown()` is not called.
When `a.impl.run()` returns nil it is called once. -/
theorem Run_error_skips_shutdown :
    (Run ⟨true⟩ "linux" (.returned (some "run failed")) (freshWorld true)).1 = .returned ∧
    (Run ⟨true⟩ "linux" (.returned (some "run failed")) (freshWorld true)).2.1
      = some "run failed" ∧
    (Run ⟨true⟩ "linux" (.returned (some "run failed")) (freshWorld true)).2.2.trace
      = [.log "INFO" "Starting application",
         .goDispatchLoop "applicationEvents", .goDispatchLoop "windowEvents",
         .goDispatchLoop "webviewRequests", .goDispatchLoop "windowMessageBuffer",
         .goDispatchLoop "windowDragAndDropBuffer", .goDispatchLoop "menuItemClicked",
         .implSetApplicationMenu, .implSetIcon, .implRun] ∧
    shutdownCalls
      (Run ⟨true⟩ "linux" (.returned (some "run failed")) (freshWorld true)).2.2.trace = 0 ∧
    shutdownCalls (Run ⟨true⟩ "linux" (.returned none) (freshWorld true)).2.2.trace = 1 := by
  decide

end EntryPointTheorems

section IconCommand

theorem foldl_digits_le (ds : List Char) (n : Nat) :
    n ≤ ds.foldl (fun n c => n * 10 + (c.toNat - 48)) n := by
  induction ds generalizing n with
  | nil => simp
  | cons c rest ih =>
    simp only [List.foldl_cons]
    exact le_trans (by omega) (ih _)

theorem parseUintLoop_ok (s0 : String) (ds : List Char) (n : Nat)
    (hd : ds.all Char.isDigit = true)
    (hv : ds.foldl (fun n c => n * 10 + (c.toNat - 48)) n < 2 ^ 64) :
    parseUintLoop s0 ds n = .ok (ds.foldl (fun n c => n * 10 + (c.toNat - 48)) n) := by
  induction ds generalizing n with
  | nil => simp [parseUintLoop]
  | cons c rest ih =>
    simp only [List.all_cons, Bool.and_eq_true] at hd
    simp only [List.foldl_cons] at hv ⊢
    have hle := foldl_digits_le rest (n * 10 + (c.toNat - 48))
    have hlt : ¬ 2 ^ 64 ≤ n * 10 + (c.toNat - 48) := by omega
    simp only [parseUintLoop, hd.1, if_true, hlt, if_false]
    exact ih _ hd.2 hv

theorem parseUintLoop_ok_inv (s0 : String) (ds : List Char) (n m : Nat)
    (hn : n < 2 ^ 64) (h : parseUintLoop s0 ds n = .ok m) :
    ds.all Char.isDigit = true ∧
    m = ds.foldl (fun n c => n * 10 + (c.toNat - 48)) n ∧ m < 2 ^ 64 := by
  induction ds generalizing n with
  | nil =>
    simp only [parseUintLoop, Except.ok.injEq] at h
    subst h
    exact ⟨rfl, rfl, hn⟩
  | cons c rest ih =>
    by_cases hc : c.isDigit = true
    · by_cases hlt : 2 ^ 64 ≤ n * 10 + (c.toNat - 48)
      · simp only [parseUintLoop, hc, if_true, hlt] at h
        cases h
      · simp only [parseUintLoop, hc, if_true, hlt, if_false] at h
        have := ih _ (by omega) h
        simp only [List.all_cons, hc, Bool.true_and, List.foldl_cons]
        exact this
    · simp only [parseUintLoop, hc] at h
      cases h

/-- `Atoi` on a sign and a run of digits that have been split already. -/
theorem Atoi_core (s : String) (neg : Bool) (ds : List Char) (v : Int) :
    ((if ds.isEmpty then (Except.error ⟨"Atoi", s, .ErrSyntax⟩ : Except NumError Int)
      else
        match parseUintLoop s ds 0 with
        | .error err => .error err
        | .ok un =>
          if !neg && decide (2 ^ 63 ≤ un) then .error ⟨"Atoi", s, .ErrRange⟩
          else if neg && decide (2 ^ 63 < un) then .error ⟨"Atoi", s, .ErrRange⟩
          else .ok (if neg then -(un : Int) else (un : Int))) = .ok v) ↔
    ((!ds.isEmpty && ds.all Char.isDigit &&
        (if neg then decide (decimalValue ds ≤ 2 ^ 63)
         else decide (decimalValue ds < 2 ^ 63))) = true ∧
      v = if neg then -(decimalValue ds : Int) else (decimalValue ds : Int)) := by
  by_cases he : ds.isEmpty = true
  · simp [he]
  · have he1 : ds.isEmpty = false := by simpa using he
    cases hp : parseUintLoop s ds 0 with
    | error err =>
      simp only [he1, Bool.false_eq_true, if_false, Bool.not_false, Bool.true_and,
        Bool.and_eq_true, false_iff, not_and, reduceCtorEq]
      intro hv
      exfalso
      have hlt : decimalValue ds < 2 ^ 64 := by
        cases neg
        · have := hv.2
          simp only [Bool.false_eq_true, if_false, decide_eq_true_eq] at this
          omega
        · have := hv.2
          simp only [if_true, decide_eq_true_eq] at this
          omega
      have := parseUintLoop_ok s ds 0 hv.1 hlt
      rw [hp] at this
      cases this
    | ok un =>
      obtain ⟨hd, hu, _⟩ := parseUintLoop_ok_inv s ds 0 un (by norm_num) hp
      have hu1 : decimalValue ds = un := hu.symm
      simp only [he1, Bool.false_eq_true, if_false, Bool.not_false, Bool.true_and, hd, hu1]
      cases neg
      · by_cases hr : 2 ^ 63 ≤ un
        · have hr1 : ¬ un < 2 ^ 63 := by omega
          simp only [Bool.not_false, Bool.true_and, decide_eq_true_eq, hr, if_true,
            Bool.false_eq_true, if_false, hr1, false_and, reduceCtorEq]
        · have hr1 : un < 2 ^ 63 := by omega
          simp only [Bool.not_false, Bool.true_and, decide_eq_true_eq, hr, if_false,
            Bool.false_and, Bool.false_eq_true, hr1, true_and, Except.ok.injEq]
          exact eq_comm
      · by_cases hr : 2 ^ 63 < un
        · have hr1 : ¬ un ≤ 2 ^ 63 := by omega
          simp only [Bool.not_true, Bool.false_and, Bool.false_eq_true, if_false,
            Bool.true_and, decide_eq_true_eq, hr, if_true, hr1, false_and, reduceCtorEq]
        · have hr1 : un ≤ 2 ^ 63 := by omega
          simp only [Bool.not_true, Bool.false_and, Bool.false_eq_true, if_false,
            Bool.true_and, decide_eq_true_eq, hr, if_true, hr1, true_and, Except.ok.injEq]
          exact eq_comm

/-- `Atoi` returns a value exactly for the valid integers, and the value is
the integer value of the field. -/
theorem Atoi_eq_ok_iff (f : String) (v : Int) :
    Atoi f = .ok v ↔ validInteger f = true ∧ v = integerValue f :=
  Atoi_core f (splitSign f.data).1 (splitSign f.data).2 v

theorem Atoi_error_iff (f : String) :
    (∃ err, Atoi f = .error err) ↔ validInteger f = false := by
  cases h : Atoi f with
  | error err =>
    constructor
    · intro _
      by_contra hv
      have hv1 : validInteger f = true := by simpa using hv
      have := (Atoi_eq_ok_iff f (integerValue f)).mpr ⟨hv1, rfl⟩
      rw [h] at this
      cases this
    · intro _
      exact ⟨err, rfl⟩
  | ok v =>
    have := ((Atoi_eq_ok_iff f v).mp h).1
    simp [this]

theorem List.set_length_append_cons (pre : List Int) (x s : Int) (rest : List Int) :
    (pre ++ x :: rest).set pre.length s = pre ++ s :: rest := by
  induction pre with
  | nil => rfl
  | cons p pre ih => simp [List.set, ih]

/-- The loop of `parseSizes` over valid fields: with the entries of the
earlier fields in place and zeros behind them, it ends with the slice of all
integer values. -/
theorem parseSizesLoop_ok (fields : List String) (pre : List Int)
    (h : ∀ f ∈ fields, validInteger f = true) :
    parseSizesLoop fields pre.length (pre ++ List.replicate fields.length (0 : Int))
      = .ok (pre ++ fields.map integerValue) := by
  induction fields generalizing pre with
  | nil => simp [parseSizesLoop]
  | cons f rest ih =>
    have hf : Atoi f = .ok (integerValue f) :=
      (Atoi_eq_ok_iff f _).mpr ⟨h f (List.mem_cons_self _ _), rfl⟩
    have hrest : ∀ g ∈ rest, validInteger g = true :=
      fun g hg => h g (List.mem_cons_of_mem _ hg)
    have hlen : (pre ++ [integerValue f]).length = pre.length + 1 := by simp
    have ih1 := ih (pre ++ [integerValue f]) hrest
    rw [hlen] at ih1
    simp only [List.append_assoc, List.singleton_append] at ih1
    simp only [parseSizesLoop, hf, List.length_cons, List.replicate_succ, List.map_cons]
    by_cases hz : integerValue f = 0
    · simp only [hz, if_true]
      rw [hz] at ih1
      exact ih1
    · simp only [hz, if_false]
      rw [List.set_length_append_cons]
      exact ih1

/-- The loop of `parseSizes` over fields of which one is not a valid
integer returns an error, whatever the index and the slice. -/
theorem parseSizesLoop_error (fields : List String) (i : Nat) (result : List Int)
    (h : ∃ f ∈ fields, validInteger f = false) :
    ∃ err, parseSizesLoop fields i result = .error err := by
  induction fields generalizing i result with
  | nil =>
    obtain ⟨f, hf, _⟩ := h
    cases hf
  | cons f rest ih =>
    cases ha : Atoi f with
    | error err => exact ⟨err, by simp [parseSizesLoop, ha]⟩
    | ok v =>
      have hv : validInteger f = true := ((Atoi_eq_ok_iff f v).mp ha).1
      have hrest : ∃ g ∈ rest, validInteger g = false := by
        obtain ⟨g, hg, hgv⟩ := h
        rcases List.mem_cons.mp hg with hgf | hgr
        · subst hgf
          rw [hv] at hgv
          cases hgv
        · exact ⟨g, hgr, hgv⟩
      simp only [parseSizesLoop, ha]
      by_cases hz : v = 0
      · simp only [hz, if_true]
        exact ih _ _ hrest
      · simp only [hz, if_false]
        exact ih _ _ hrest

/-- C13: `parseSizes` splits its input on commas; it returns an error if and
only if some field is not a valid integer (an optional sign, decimal digits,
a value that an `int` holds); otherwise it returns one entry per field, in
input order, each the integer value of its field, 0 for a field that parses
to 0; the default sizes give `[256, 128, 64, 48, 32, 16]`. -/
theorem parseSizes_one_entry_per_field (sizes : String) :
    ((∃ err, parseSizes sizes = .error err) ↔
      ∃ f ∈ Split sizes ',', validInteger f = false) ∧
    ((∀ f ∈ Split sizes ',', validInteger f = true) →
      parseSizes sizes = .ok ((Split sizes ',').map integerValue)) ∧
    (∀ r, parseSizes sizes = .ok r →
      r = (Split sizes ',').map integerValue ∧
      r.length = (Split sizes ',').length ∧
      ∀ f ∈ Split sizes ',', Atoi f = .ok (integerValue f)) ∧
    parseSizes IconOptions.Default.Sizes = .ok [256, 128, 64, 48, 32, 16] ∧
    parseSizes "256,128,64,48,32,16" = .ok [256, 128, 64, 48, 32, 16] ∧
    parseSizes "16,0,32" = .ok [16, 0, 32] := by
  have hok : (∀ f ∈ Split sizes ',', validInteger f = true) →
      parseSizes sizes = .ok ((Split sizes ',').map integerValue) := by
    intro h
    have := parseSizesLoop_ok (Split sizes ',') [] h
    simpa [parseSizes] using this
  have herr : (∃ f ∈ Split sizes ',', validInteger f = false) →
      ∃ err, parseSizes sizes = .error err := by
    intro h
    exact parseSizesLoop_error _ _ _ h
  have hcases : (∀ f ∈ Split sizes ',', validInteger f = true) ∨
      ∃ f ∈ Split sizes ',', validInteger f = false := by
    by_cases hall : ∀ f ∈ Split sizes ',', validInteger f = true
    · exact Or.inl hall
    · right
      push_neg at hall
      obtain ⟨f, hf, hv⟩ := hall
      exact ⟨f, hf, by simpa using hv⟩
  refine ⟨⟨?_, herr⟩, hok, ?_, rfl, rfl, rfl⟩
  · rintro ⟨err, he⟩
    rcases hcases with hall | hex
    · rw [hok hall] at he
      cases he
    · exact hex
  · intro r hr
    rcases hcases with hall | hex
    · rw [hok hall] at hr
      cases hr
      refine ⟨rfl, by simp, ?_⟩
      intro f hf
      exact (Atoi_eq_ok_iff f _).mpr ⟨hall f hf, rfl⟩
    · obtain ⟨err, he⟩ := herr hex
      rw [he] at hr
      cases hr

/-- C13 on `"48,x,16"`: the field `x` is not a valid integer and the result
is the error of `Atoi` for it. -/
theorem parseSizes_one_entry_per_field_witness :
    validInteger "x" = false ∧ (∃ err, parseSizes "48,x,16" = .error err) :=
  ⟨by decide,
    (parseSizes_one_entry_per_field "48,x,16").1.mpr ⟨"x", by decide, by decide⟩⟩

end IconCommand

end Wails
